import Mathlib

/-!
# Workflow job template node resource: edge reconciliation

A shallow embedding of `awx/resource_workflow_job_template_node.go`.

Go `int` values are identifiers that are only compared, stored and sorted, never
computed with, so they are embedded as `Int`.  A Go `error` is embedded as its
message (`Option String`, `none` for `nil`).  A Go `map[int]bool` whose values
are all `true` is embedded as the duplicate-free list of its keys; the order in
which `range` visits the keys is unspecified in Go and is supplied from outside
by a `MapOrder`.
-/

namespace Awx

/-! ## Go maps used as sets -/

/-- An iteration order for `for k := range m`: any rearrangement of the keys. -/
structure MapOrder where
  /-- The order in which the keys of the map are visited. -/
  visit : List Int → List Int
  /-- Every key is visited exactly once. -/
  perm : ∀ keys, (visit keys).Perm keys

/-- The statement `m[k] = true` on a map whose values are all `true`. -/
def mapSet (m : List Int) (k : Int) : List Int :=
  if k ∈ m then m else m ++ [k]

/-- The loop `for _, k := range arr { m[k] = true }` started from the map `m`. -/
def mapFill (m : List Int) (arr : List Int) : List Int :=
  arr.foldl mapSet m

/-- The expression `m[k]` on a `map[int]bool` whose values are all `true`:
the zero value `false` for an absent key. -/
def mapGet (m : List Int) (k : Int) : Bool :=
  decide (k ∈ m)

/-- The call `sort.Ints(x)`: `x` in increasing order. -/
def sortInts (x : List Int) : List Int :=
  x.insertionSort (fun a b => a ≤ b)

/-! ## `normalizeIntArray` (lines 139-160) -/

/-- Helper function to sort and deduplicate an array of integers. -/
def normalizeIntArray (ord : MapOrder) (arr : List Int) : List Int :=
  if arr.length = 0 then arr
  else
    let uniqueMap := mapFill [] arr
    let result := (ord.visit uniqueMap).foldl (fun result num => result ++ [num]) []
    sortInts result

/-- The order that visits the keys as they were inserted. -/
def insertionOrder : MapOrder := ⟨fun keys => keys, fun _ => List.Perm.refl _⟩

/-- The order that visits the keys in reverse of their insertion. -/
def reverseOrder : MapOrder := ⟨fun keys => keys.reverse, fun keys => List.reverse_perm keys⟩

/-! ## Resource data (`schema.ResourceData`) and the resource schema (lines 39-126) -/

/-- The value types of the provider SDK that the schema of this resource uses. -/
inductive ValueType
  | TypeBool
  | TypeInt
  | TypeString
  | TypeList
  deriving DecidableEq, Repr

/-- A Go `interface{}` holding an attribute value.  Every list attribute of this
resource declares `Elem: TypeInt`, so a list value holds integers. -/
inductive Value
  | bool (b : Bool)
  | int (i : Int)
  | string (s : String)
  | list (l : List Int)
  deriving DecidableEq, Repr

/-- The schema type a value belongs to. -/
def Value.type : Value → ValueType
  | .bool _ => .TypeBool
  | .int _ => .TypeInt
  | .string _ => .TypeString
  | .list _ => .TypeList

/-- The zero value of a schema type (`ValueType.Zero()`). -/
def ValueType.zero : ValueType → Value
  | .TypeBool => .bool false
  | .TypeInt => .int 0
  | .TypeString => .string ""
  | .TypeList => .list []

/-- The fields of `schema.Schema` that decide what an attribute read returns. -/
structure Schema where
  /-- The field `Type`. -/
  type : ValueType
  /-- The field `Default`, when the declaration has one. -/
  dflt : Option Value

/-- The `Schema` map of `resourceWorkflowJobTemplateNode`. -/
def resourceWorkflowJobTemplateNodeSchema : List (String × Schema) :=
  [ ("extra_data", ⟨.TypeString, some (.string "")⟩),
    ("inventory_id", ⟨.TypeInt, none⟩),
    ("scm_branch", ⟨.TypeString, some (.string "")⟩),
    ("job_type", ⟨.TypeString, some (.string "run")⟩),
    ("job_tags", ⟨.TypeString, none⟩),
    ("skip_tags", ⟨.TypeString, none⟩),
    ("limit", ⟨.TypeString, none⟩),
    ("diff_mode", ⟨.TypeBool, none⟩),
    ("verbosity", ⟨.TypeInt, some (.int 0)⟩),
    ("workflow_job_template_id", ⟨.TypeInt, none⟩),
    ("unified_job_template_id", ⟨.TypeInt, none⟩),
    ("success_nodes", ⟨.TypeList, none⟩),
    ("failure_nodes", ⟨.TypeList, none⟩),
    ("always_nodes", ⟨.TypeList, none⟩),
    ("all_parents_must_converge", ⟨.TypeBool, some (.bool true)⟩),
    ("identifier", ⟨.TypeString, none⟩) ]

/-- The resource data handed to the CRUD functions: the state identifier and the
attribute values that are set. -/
structure ResourceData where
  /-- The state identifier (`d.Id()`). -/
  id : String
  /-- The attribute values that are set. -/
  attrs : String → Option Value

/-- The call `d.Get(key)`.  A key the schema does not declare reads as the nil
interface (`none`).  A declared key reads as a value of its declared type: the
value that is set, else the declared default, else the zero value of the type
(the SDK reads every attribute through its schema type, so a value of another
type is never observed). -/
def ResourceData.Get (d : ResourceData) (key : String) : Option Value :=
  match resourceWorkflowJobTemplateNodeSchema.lookup key with
  | none => none
  | some sch =>
    match d.attrs key with
    | some v => if v.type = sch.type then some v else some sch.type.zero
    | none => some (sch.dflt.getD sch.type.zero)

/-- The call `d.GetOk(key)`: the value of `d.Get(key)` and whether it exists and
differs from the zero value of its type. -/
def ResourceData.GetOk (d : ResourceData) (key : String) : Option Value × Bool :=
  match resourceWorkflowJobTemplateNodeSchema.lookup key with
  | none => (none, false)
  | some sch => (d.Get key, decide (d.Get key ≠ some sch.type.zero))

/-- The call `d.SetId(v)`. -/
def ResourceData.SetId (d : ResourceData) (v : String) : ResourceData :=
  { d with id := v }

/-! A function that can panic returns `Except String α`: `.error msg` is a
run-time panic with that message. -/

/-- The type assertion `x.(string)`. -/
def assertString : Option Value → Except String String
  | some (.string s) => .ok s
  | none => .error "interface conversion: interface \x7b\x7d is nil, not string"
  | some _ => .error "interface conversion: interface \x7b\x7d is not string"

/-- The type assertion `x.(int)`. -/
def assertInt : Option Value → Except String Int
  | some (.int i) => .ok i
  | none => .error "interface conversion: interface \x7b\x7d is nil, not int"
  | some _ => .error "interface conversion: interface \x7b\x7d is not int"

/-- The type assertion `x.(bool)`. -/
def assertBool : Option Value → Except String Bool
  | some (.bool b) => .ok b
  | none => .error "interface conversion: interface \x7b\x7d is nil, not bool"
  | some _ => .error "interface conversion: interface \x7b\x7d is not bool"

/-- The type assertion `x.([]interface{})` followed by `node.(int)` on each
element. -/
def assertList : Option Value → Except String (List Int)
  | some (.list l) => .ok l
  | none => .error "interface conversion: interface \x7b\x7d is nil, not []interface \x7b\x7d"
  | some _ => .error "interface conversion: interface \x7b\x7d is not []interface \x7b\x7d"

/-! ## `getNodeList` (lines 162-172) -/

/-- Helper function to convert schema.TypeList to []int and normalize it. -/
def getNodeList (ord : MapOrder) (d : ResourceData) (field : String) : Except String (List Int) :=
  match d.GetOk field with
  | (nodes, true) =>
    match assertList nodes with
    | .error p => .error p
    | .ok nodeList =>
      .ok (normalizeIntArray ord (nodeList.foldl (fun result node => result ++ [node]) []))
  | (_, false) => .ok (normalizeIntArray ord [])

/-! ## The remote service (`awx.WorkflowJobTemplateNodeService`) -/

/-- The attribute map `map[string]interface{}` sent with a create or update call:
its entries in insertion order, one per key. -/
abbrev Params := List (String × Value)

/-- The statement `params[key] = v`. -/
def Params.set (p : Params) (key : String) (v : Value) : Params :=
  if p.any (fun e => e.1 == key) then p.map (fun e => if e.1 == key then (key, v) else e)
  else p ++ [(key, v)]

/-- Whether `key` is a key of the attribute map. -/
def Params.hasKey (p : Params) (key : String) : Bool :=
  p.any (fun e => e.1 == key)

/-- The node record the client returns; only its `ID` is read by the functions
embedded here. -/
structure WorkflowJobTemplateNode where
  /-- The identifier the remote system assigned to the node. -/
  ID : Int
  deriving DecidableEq, Repr

/-- The methods of the client service that the resource calls, over a remote
state `σ`.  A method returns its result (an error as its message) and the remote
state after the call. -/
structure WorkflowJobTemplateNodeService (σ : Type) where
  /-- `GetNodeRelationships(nodeID, endpoint)`. -/
  GetNodeRelationships : Int → String → σ → Except String (List WorkflowJobTemplateNode) × σ
  /-- `DisassociateNodeRelationship(nodeID, targetID, endpoint)`. -/
  DisassociateNodeRelationship : Int → Int → String → σ → Option String × σ
  /-- `AssociateNodeRelationship(nodeID, targetID, endpoint)`. -/
  AssociateNodeRelationship : Int → Int → String → σ → Option String × σ
  /-- `CreateWorkflowJobTemplateNode(params, map[string]string{})`. -/
  CreateWorkflowJobTemplateNode : Params → σ → Except String WorkflowJobTemplateNode × σ
  /-- `UpdateWorkflowJobTemplateNode(id, params, map[string]string{})`. -/
  UpdateWorkflowJobTemplateNode : Int → Params → σ → Except String WorkflowJobTemplateNode × σ
  /-- `GetWorkflowJobTemplateNodeByID(id, params)`. -/
  GetWorkflowJobTemplateNodeByID : Int → σ → Except String WorkflowJobTemplateNode × σ

/-! ## `handleNodeRelationships` (lines 376-441) -/

/-- The list `relationshipEndpoints`. -/
def relationshipEndpoints : List String := ["success_nodes", "failure_nodes", "always_nodes"]

/-- The comparison loop of lines 398-404, entered when both slices have the same
length: whether some position holds different values. -/
def different : List Int → List Int → Bool
  | a :: as, b :: bs => if a ≠ b then true else different as bs
  | _, _ => false

/-- The loop of lines 422-428 over the keys of `existingMap` still to visit:
disassociate every key that `desiredMap` lacks, returning at the first error. -/
def removeLoop {σ : Type} (svc : WorkflowJobTemplateNodeService σ) (nodeID : Int)
    (endpoint : String) (desiredMap : List Int) : List Int → σ → Option String × σ
  | [], s => (none, s)
  | existingID :: rest, s =>
    if !mapGet desiredMap existingID then
      match svc.DisassociateNodeRelationship nodeID existingID endpoint s with
      | (some err, s₁) => (some ("failed to remove " ++ endpoint ++ " relationship: " ++ err), s₁)
      | (none, s₁) => removeLoop svc nodeID endpoint desiredMap rest s₁
    else removeLoop svc nodeID endpoint desiredMap rest s

/-- The loop of lines 431-437 over the keys of `desiredMap` still to visit:
associate every key that `existingMap` lacks, returning at the first error. -/
def addLoop {σ : Type} (svc : WorkflowJobTemplateNodeService σ) (nodeID : Int)
    (endpoint : String) (existingMap : List Int) : List Int → σ → Option String × σ
  | [], s => (none, s)
  | desiredID :: rest, s =>
    if !mapGet existingMap desiredID then
      match svc.AssociateNodeRelationship nodeID desiredID endpoint s with
      | (some err, s₁) => (some ("failed to create " ++ endpoint ++ " relationship: " ++ err), s₁)
      | (none, s₁) => addLoop svc nodeID endpoint existingMap rest s₁
    else addLoop svc nodeID endpoint existingMap rest s

/-- One pass of the loop body of lines 379-438 for `endpoint`, the `i`-th
endpoint.  The result `.ok (some err)` is `return err`, `.ok none` is the end of
the pass (by `continue` or by reaching the end of the body), `.error p` is a
panic.  The four map iterations of the pass take their orders from `iter` at
`4 * i`, `4 * i + 1`, `4 * i + 2` and `4 * i + 3`. -/
def reconcileEndpoint {σ : Type} (svc : WorkflowJobTemplateNodeService σ) (iter : Nat → MapOrder)
    (nodeID : Int) (d : ResourceData) (i : Nat) (endpoint : String) (s : σ) :
    Except String (Option String) × σ :=
  match svc.GetNodeRelationships nodeID endpoint s with
  | (.error err, s₁) =>
    (.ok (some ("failed to get existing " ++ endpoint ++ " relationships: " ++ err)), s₁)
  | (.ok existing, s₁) =>
    let existingIDs := normalizeIntArray (iter (4 * i)) (existing.map (fun node => node.ID))
    match getNodeList (iter (4 * i + 1)) d endpoint with
    | .error p => (.error p, s₁)
    | .ok desiredNodes =>
      if existingIDs.length = desiredNodes.length ∧ different existingIDs desiredNodes = false then
        (.ok none, s₁)
      else
        let existingMap := mapFill [] existingIDs
        let desiredMap := mapFill [] desiredNodes
        match removeLoop svc nodeID endpoint desiredMap ((iter (4 * i + 2)).visit existingMap) s₁ with
        | (some err, s₂) => (.ok (some err), s₂)
        | (none, s₂) =>
          match addLoop svc nodeID endpoint existingMap ((iter (4 * i + 3)).visit desiredMap) s₂ with
          | (some err, s₃) => (.ok (some err), s₃)
          | (none, s₃) => (.ok none, s₃)

/-- The loop `for _, endpoint := range relationshipEndpoints` over the endpoints
still to process, the first of them being the `i`-th. -/
def endpointLoop {σ : Type} (svc : WorkflowJobTemplateNodeService σ) (iter : Nat → MapOrder)
    (nodeID : Int) (d : ResourceData) : Nat → List String → σ → Except String (Option String) × σ
  | _, [], s => (.ok none, s)
  | i, endpoint :: rest, s =>
    match reconcileEndpoint svc iter nodeID d i endpoint s with
    | (.ok none, s₁) => endpointLoop svc iter nodeID d (i + 1) rest s₁
    | r => r

/-- The function `handleNodeRelationships(awxService, nodeID, d)`: the returned
`error` (`.ok none` for `nil`) or a panic, and the remote state it leaves. -/
def handleNodeRelationships {σ : Type} (svc : WorkflowJobTemplateNodeService σ)
    (iter : Nat → MapOrder) (nodeID : Int) (d : ResourceData) (s : σ) :
    Except String (Option String) × σ :=
  endpointLoop svc iter nodeID d 0 relationshipEndpoints s

/-! ## Diagnostics and the helpers of the package declared in other files -/

/-- The severities of `diag.Diagnostic`. -/
inductive Severity
  | Error
  | Warning
  deriving DecidableEq, Repr

/-- A `diag.Diagnostic`. -/
structure Diagnostic where
  /-- The field `Severity`. -/
  Severity : Severity
  /-- The field `Summary`. -/
  Summary : String
  /-- The field `Detail`. -/
  Detail : String
  deriving DecidableEq, Repr

/-- The type `diag.Diagnostics`. -/
abbrev Diagnostics := List Diagnostic

/-- The method `diags.HasError()`. -/
def Diagnostics.HasError (diags : Diagnostics) : Bool :=
  diags.any (fun dg => decide (dg.Severity = Severity.Error))

/-- The call `diag.FromErr(err)`: one error diagnostic whose summary is the
message of `err`. -/
def diagFromErr (err : String) : Diagnostics :=
  [⟨Severity.Error, err, ""⟩]

/-- The functions of the package that this file calls and other files declare;
they are parameters of the embedding. -/
structure Helpers where
  /-- `convertStateIDToNummeric(operation, d)`. -/
  convertStateIDToNummeric : String → ResourceData → Int × Diagnostics
  /-- `buildDiagNotFoundFail(tfMethode, id, err)`. -/
  buildDiagNotFoundFail : String → Int → String → Diagnostics

/-- What a CRUD function returns: diagnostics, a run-time panic, or the value of
its closing call `resourceWorkflowJobTemplateNodeRead(ctx, d, m)`, which is not
unfolded here. -/
inductive Returned
  | diags (ds : Diagnostics)
  | panic (msg : String)
  | read
  deriving DecidableEq, Repr

/-- What a CRUD function leaves: what it returns, the resource data and the
remote state. -/
abbrev Outcome (σ : Type) := Returned × ResourceData × σ

/-! ## `resourceWorkflowJobTemplateNodeCreate` (lines 175-223) and
`resourceWorkflowJobTemplateNodeUpdate` (lines 225-280) -/

/-- The attribute map built by lines 180-202 of the create function (`params`)
and, statement for statement, by lines 240-262 of the update function
(`updateParams`). -/
def nodeParams (d : ResourceData) : Except String Params := do
  let extra_data ← assertString (d.Get "extra_data")
  let workflow_job_template ← assertInt (d.Get "workflow_job_template_id")
  let unified_job_template ← assertInt (d.Get "unified_job_template_id")
  let all_parents_must_converge ← assertBool (d.Get "all_parents_must_converge")
  let identifier ← assertString (d.Get "identifier")
  let params : Params :=
    [ ("extra_data", Value.string extra_data),
      ("workflow_job_template", Value.int workflow_job_template),
      ("unified_job_template", Value.int unified_job_template),
      ("all_parents_must_converge", Value.bool all_parents_must_converge),
      ("identifier", Value.string identifier) ]
  let job_type ← assertString (d.Get "job_type")
  let params ←
    if job_type = "run" then do
      let job_type ← assertString (d.Get "job_type")
      let params := params.set "job_type" (Value.string job_type)
      let verbosity ← assertInt (d.Get "verbosity")
      let params := params.set "verbosity" (Value.int verbosity)
      let limit ← assertString (d.Get "limit")
      let params := params.set "limit" (Value.string limit)
      let scm_branch ← assertString (d.Get "scm_branch")
      let params := params.set "scm_branch" (Value.string scm_branch)
      let job_tags ← assertString (d.Get "job_tags")
      let params := params.set "job_tags" (Value.string job_tags)
      let skip_tags ← assertString (d.Get "skip_tags")
      let params := params.set "skip_tags" (Value.string skip_tags)
      let diff_mode ← assertBool (d.Get "diff_mode")
      pure (params.set "diff_mode" (Value.bool diff_mode))
    else pure params
  match d.GetOk "inventory_id" with
  | (v, true) => do
    let inventory ← assertInt v
    pure (params.set "inventory" (Value.int inventory))
  | (_, false) => pure params

/-- The `Detail` of the diagnostic built at line 210. -/
def createFailDetail (d : ResourceData) (err : String) : Except String String := do
  let unified_job_template_id ← assertInt (d.Get "unified_job_template_id")
  let workflow_job_template_id ← assertInt (d.Get "workflow_job_template_id")
  pure ("WorkflowJobTemplateNode with JobTemplateID " ++ toString unified_job_template_id
    ++ " and WorkflowID: " ++ toString workflow_job_template_id ++ " failed to create " ++ err)

/-- The `Detail` of the diagnostic built at line 269. -/
def updateFailDetail (d : ResourceData) (err : String) : Except String String := do
  let name ← assertString (d.Get "name")
  let project_id ← assertInt (d.Get "project_id")
  pure ("WorkflowJobTemplateNode with name " ++ name ++ " in the project id "
    ++ toString project_id ++ " failed to update " ++ err)

/-- The function `resourceWorkflowJobTemplateNodeCreate`. -/
def resourceWorkflowJobTemplateNodeCreate {σ : Type} (svc : WorkflowJobTemplateNodeService σ)
    (iter : Nat → MapOrder) (d : ResourceData) (s : σ) : Outcome σ :=
  match nodeParams d with
  | .error p => (.panic p, d, s)
  | .ok params =>
    match svc.CreateWorkflowJobTemplateNode params s with
    | (.error err, s₁) =>
      match createFailDetail d err with
      | .error p => (.panic p, d, s₁)
      | .ok detail =>
        (.diags [⟨Severity.Error, "Unable to create WorkflowJobTemplateNode", detail⟩], d, s₁)
    | (.ok result, s₁) =>
      match handleNodeRelationships svc iter result.ID (d.SetId (toString result.ID)) s₁ with
      | (.error p, s₂) => (.panic p, d.SetId (toString result.ID), s₂)
      | (.ok (some err), s₂) => (.diags (diagFromErr err), d.SetId (toString result.ID), s₂)
      | (.ok none, s₂) => (.read, d.SetId (toString result.ID), s₂)

/-- The function `resourceWorkflowJobTemplateNodeUpdate`. -/
def resourceWorkflowJobTemplateNodeUpdate {σ : Type} (hp : Helpers)
    (svc : WorkflowJobTemplateNodeService σ) (iter : Nat → MapOrder)
    (d : ResourceData) (s : σ) : Outcome σ :=
  match hp.convertStateIDToNummeric "Update WorkflowJobTemplateNode" d with
  | (id, diags) =>
    if diags.HasError then (.diags diags, d, s)
    else
      match svc.GetWorkflowJobTemplateNodeByID id s with
      | (.error err, s₁) =>
        (.diags (hp.buildDiagNotFoundFail "workflow job template node" id err), d, s₁)
      | (.ok _, s₁) =>
        match nodeParams d with
        | .error p => (.panic p, d, s₁)
        | .ok updateParams =>
          match svc.UpdateWorkflowJobTemplateNode id updateParams s₁ with
          | (.error err, s₂) =>
            match updateFailDetail d err with
            | .error p => (.panic p, d, s₂)
            | .ok detail =>
              (.diags (diags ++
                [⟨Severity.Error, "Unable to update WorkflowJobTemplateNode", detail⟩]), d, s₂)
          | (.ok _, s₂) =>
            match handleNodeRelationships svc iter id d s₂ with
            | (.error p, s₃) => (.panic p, d, s₃)
            | (.ok (some err), s₃) => (.diags (diagFromErr err), d, s₃)
            | (.ok none, s₃) => (.read, d, s₃)

/-! ## A backing store for the remote service

The remote system is outside the repository.  The store below is the backing
store the properties are stated against: a fetch returns the stored targets, an
associate inserts the target, a disassociate deletes it, and every call is
written to a log.  Which calls fail, and with what message, is decided by a
`Fault`; a failed call changes nothing but the log. -/

/-- A call received by the remote service. -/
inductive Call
  | GetNodeRelationships (nodeID : Int) (endpoint : String)
  | DisassociateNodeRelationship (nodeID targetID : Int) (endpoint : String)
  | AssociateNodeRelationship (nodeID targetID : Int) (endpoint : String)
  | CreateWorkflowJobTemplateNode (params : Params)
  | UpdateWorkflowJobTemplateNode (id : Int) (params : Params)
  | GetWorkflowJobTemplateNodeByID (id : Int)
  deriving DecidableEq, Repr

/-- The log of the store: each call received, with the error it was answered
with (`none` when it succeeded). -/
abbrev Log := List (Call × Option String)

/-- Which calls fail: from the log so far and the call, the error message of the
call when it fails. -/
abbrev Fault := Log → Call → Option String

/-- The fault under which no call fails. -/
def noFault : Fault := fun _ _ => none

/-- The backing store. -/
structure Store where
  /-- The stored targets of each (node, kind) pair. -/
  edges : Int → String → List Int
  /-- The identifier the next created node gets. -/
  nextID : Int
  /-- The calls received so far. -/
  log : Log

/-- Append a call and its answer to the log. -/
def Store.record (s : Store) (c : Call) (e : Option String) : Store :=
  { s with log := s.log ++ [(c, e)] }

/-- The edges after `targetID` is inserted into the set of (`nodeID`, `endpoint`). -/
def insertEdge (edges : Int → String → List Int) (nodeID targetID : Int) (endpoint : String) :
    Int → String → List Int :=
  fun n k => if n = nodeID ∧ k = endpoint then mapSet (edges n k) targetID else edges n k

/-- The edges after `targetID` is deleted from the set of (`nodeID`, `endpoint`). -/
def deleteEdge (edges : Int → String → List Int) (nodeID targetID : Int) (endpoint : String) :
    Int → String → List Int :=
  fun n k => if n = nodeID ∧ k = endpoint then (edges n k).filter (fun x => x ≠ targetID)
    else edges n k

/-- The service backed by the store, under the fault `fault`. -/
def storeService (fault : Fault) : WorkflowJobTemplateNodeService Store where
  GetNodeRelationships nodeID endpoint s :=
    match fault s.log (Call.GetNodeRelationships nodeID endpoint) with
    | some e => (.error e, s.record (Call.GetNodeRelationships nodeID endpoint) (some e))
    | none =>
      (.ok ((s.edges nodeID endpoint).map WorkflowJobTemplateNode.mk),
        s.record (Call.GetNodeRelationships nodeID endpoint) none)
  DisassociateNodeRelationship nodeID targetID endpoint s :=
    match fault s.log (Call.DisassociateNodeRelationship nodeID targetID endpoint) with
    | some e =>
      (some e, s.record (Call.DisassociateNodeRelationship nodeID targetID endpoint) (some e))
    | none =>
      (none, { (s.record (Call.DisassociateNodeRelationship nodeID targetID endpoint) none) with
        edges := deleteEdge s.edges nodeID targetID endpoint })
  AssociateNodeRelationship nodeID targetID endpoint s :=
    match fault s.log (Call.AssociateNodeRelationship nodeID targetID endpoint) with
    | some e =>
      (some e, s.record (Call.AssociateNodeRelationship nodeID targetID endpoint) (some e))
    | none =>
      (none, { (s.record (Call.AssociateNodeRelationship nodeID targetID endpoint) none) with
        edges := insertEdge s.edges nodeID targetID endpoint })
  CreateWorkflowJobTemplateNode params s :=
    match fault s.log (Call.CreateWorkflowJobTemplateNode params) with
    | some e => (.error e, s.record (Call.CreateWorkflowJobTemplateNode params) (some e))
    | none =>
      (.ok ⟨s.nextID⟩, { (s.record (Call.CreateWorkflowJobTemplateNode params) none) with
        nextID := s.nextID + 1 })
  UpdateWorkflowJobTemplateNode id params s :=
    match fault s.log (Call.UpdateWorkflowJobTemplateNode id params) with
    | some e => (.error e, s.record (Call.UpdateWorkflowJobTemplateNode id params) (some e))
    | none => (.ok ⟨id⟩, s.record (Call.UpdateWorkflowJobTemplateNode id params) none)
  GetWorkflowJobTemplateNodeByID id s :=
    match fault s.log (Call.GetWorkflowJobTemplateNodeByID id) with
    | some e => (.error e, s.record (Call.GetWorkflowJobTemplateNodeByID id) (some e))
    | none => (.ok ⟨id⟩, s.record (Call.GetWorkflowJobTemplateNodeByID id) none)

/-- The kind of edge a call is about, when it is about edges. -/
def Call.endpoint? : Call → Option String
  | .GetNodeRelationships _ endpoint => some endpoint
  | .DisassociateNodeRelationship _ _ endpoint => some endpoint
  | .AssociateNodeRelationship _ _ endpoint => some endpoint
  | _ => none

/-- Whether a call is an associate or a disassociate call. -/
def Call.isMutation : Call → Bool
  | .DisassociateNodeRelationship _ _ _ => true
  | .AssociateNodeRelationship _ _ _ => true
  | _ => false

/-- The targets of the disassociate calls for (`nodeID`, `endpoint`) in a log, in
the order of the calls. -/
def removedTargets (nodeID : Int) (endpoint : String) (log : Log) : List Int :=
  log.filterMap (fun e =>
    match e.1 with
    | .DisassociateNodeRelationship n t k => if n = nodeID ∧ k = endpoint then some t else none
    | _ => none)

/-- The targets of the associate calls for (`nodeID`, `endpoint`) in a log, in
the order of the calls. -/
def addedTargets (nodeID : Int) (endpoint : String) (log : Log) : List Int :=
  log.filterMap (fun e =>
    match e.1 with
    | .AssociateNodeRelationship n t k => if n = nodeID ∧ k = endpoint then some t else none
    | _ => none)

/-- The log entries of successful disassociate calls for the targets `ts`. -/
def disCalls (nodeID : Int) (endpoint : String) (ts : List Int) : Log :=
  ts.map (fun t => (Call.DisassociateNodeRelationship nodeID t endpoint, none))

/-- The log entries of successful associate calls for the targets `ts`. -/
def assocCalls (nodeID : Int) (endpoint : String) (ts : List Int) : Log :=
  ts.map (fun t => (Call.AssociateNodeRelationship nodeID t endpoint, none))

/-- The error that `handleNodeRelationships` returns when the call `c` is
answered with the error `e` (the `fmt.Errorf` of lines 383, 425 and 434). -/
def relationshipError (c : Call) (e : String) : String :=
  match c with
  | .GetNodeRelationships _ endpoint => "failed to get existing " ++ endpoint ++ " relationships: " ++ e
  | .DisassociateNodeRelationship _ _ endpoint => "failed to remove " ++ endpoint ++ " relationship: " ++ e
  | .AssociateNodeRelationship _ _ endpoint => "failed to create " ++ endpoint ++ " relationship: " ++ e
  | _ => e

/-- The desired list of a kind as the resource data declares it. -/
def desiredOf (d : ResourceData) (endpoint : String) : List Int :=
  match d.Get endpoint with
  | some (.list l) => l
  | _ => []

/-- A call that reconciling (`nodeID`, `endpoint`) from the current list `C`
to the desired list `D` may issue: the fetch of the pair, a disassociate of a
target in `C` and not in `D`, or an associate of a target in `D` and not in `C`. -/
def Justified (nodeID : Int) (endpoint : String) (C D : List Int) : Call → Prop
  | .GetNodeRelationships n k => n = nodeID ∧ k = endpoint
  | .DisassociateNodeRelationship n t k => n = nodeID ∧ k = endpoint ∧ t ∈ C ∧ t ∉ D
  | .AssociateNodeRelationship n t k => n = nodeID ∧ k = endpoint ∧ t ∈ D ∧ t ∉ C
  | _ => False

/-- The attribute map of a create or update call. -/
def Call.params? : Call → Option Params
  | .CreateWorkflowJobTemplateNode params => some params
  | .UpdateWorkflowJobTemplateNode _ params => some params
  | _ => none

/-- Whether a call is an associate call. -/
def Call.isAssociate : Call → Bool
  | .AssociateNodeRelationship _ _ _ => true
  | _ => false

/-- The attribute keys that are sent only for the job type `run` (lines 191-196). -/
def runModeKeys : List String :=
  ["limit", "scm_branch", "job_tags", "skip_tags", "diff_mode", "verbosity"]

/-- A resource data declaring the three desired lists. -/
def desiredData (success failure always : List Int) : ResourceData :=
  ⟨"", fun key =>
    if key = "success_nodes" then some (Value.list success)
    else if key = "failure_nodes" then some (Value.list failure)
    else if key = "always_nodes" then some (Value.list always)
    else none⟩

/-- A store holding the given targets for node `nodeID` and nothing else. -/
def storeOf (nodeID : Int) (success failure always : List Int) : Store :=
  ⟨fun n k =>
    if n = nodeID then
      (if k = "success_nodes" then success
       else if k = "failure_nodes" then failure
       else if k = "always_nodes" then always
       else [])
    else [], 1, []⟩

/-- The fault under which the second associate call of a run fails. -/
def failSecondAssociate : Fault := fun log c =>
  if c.isAssociate ∧ (log.filter (fun en => en.1.isAssociate)).length = 1 then some "boom"
  else none

/-- The fault under which the fetch of `always_nodes` fails. -/
def failAlwaysFetch : Fault := fun _ c =>
  match c with
  | .GetNodeRelationships _ endpoint => if endpoint = "always_nodes" then some "down" else none
  | _ => none

/-- The fault under which every associate call fails. -/
def failAssociate : Fault := fun _ c =>
  if c.isAssociate then some "boom" else none

/-- The fault under which every update call of the node record fails. -/
def failUpdate : Fault := fun _ c =>
  match c with
  | .UpdateWorkflowJobTemplateNode _ _ => some "conflict"
  | _ => none

/-- Helpers under which the state identifier converts to `5` without a
diagnostic and a lookup failure is reported with the remote error. -/
def helpersFive : Helpers :=
  ⟨fun _ _ => (5, []), fun _ _ err => diagFromErr err⟩

/-- A resource data with job type `check` and values for the run-mode
attributes. -/
def checkData : ResourceData :=
  ⟨"5", fun key =>
    if key = "job_type" then some (Value.string "check")
    else if key = "limit" then some (Value.string "web")
    else if key = "verbosity" then some (Value.int 3)
    else if key = "diff_mode" then some (Value.bool true)
    else if key = "identifier" then some (Value.string "n1")
    else none⟩

/-! ## Lemmas on maps and normalisation -/

theorem mem_mapSet (m : List Int) (k x : Int) : x ∈ mapSet m k ↔ x ∈ m ∨ x = k := by
  unfold mapSet
  split
  · constructor
    · intro h; exact Or.inl h
    · rintro (h | rfl)
      · exact h
      · assumption
  · simp

theorem nodup_mapSet (m : List Int) (k : Int) (h : m.Nodup) : (mapSet m k).Nodup := by
  unfold mapSet
  split
  · exact h
  · rename_i hk
    rw [List.nodup_append]
    refine ⟨h, List.nodup_singleton k, ?_⟩
    intro a ha hb
    simp at hb
    subst hb
    exact hk ha

theorem mem_mapFill (arr : List Int) : ∀ (m : List Int) (x : Int),
    x ∈ mapFill m arr ↔ x ∈ m ∨ x ∈ arr := by
  induction arr with
  | nil => intro m x; simp [mapFill]
  | cons a t ih =>
    intro m x
    have h := ih (mapSet m a) x
    simp only [mapFill, List.foldl_cons] at h ⊢
    rw [h, mem_mapSet]
    simp only [List.mem_cons]
    tauto

theorem nodup_mapFill (arr : List Int) : ∀ (m : List Int), m.Nodup → (mapFill m arr).Nodup := by
  induction arr with
  | nil => intro m h; simpa [mapFill] using h
  | cons a t ih =>
    intro m h
    have := ih (mapSet m a) (nodup_mapSet m a h)
    simpa [mapFill] using this

theorem foldl_append_singleton (l : List Int) : ∀ (acc : List Int),
    l.foldl (fun result num => result ++ [num]) acc = acc ++ l := by
  induction l with
  | nil => intro acc; simp
  | cons a t ih => intro acc; simp [ih]

theorem normalizeIntArray_eq (ord : MapOrder) (arr : List Int) :
    normalizeIntArray ord arr = sortInts (ord.visit (mapFill [] arr)) := by
  unfold normalizeIntArray
  split
  · rename_i h
    have : arr = [] := List.length_eq_zero.mp h
    subst this
    have hp := ord.perm (mapFill [] [])
    simp only [mapFill, List.foldl_nil, List.perm_nil] at hp
    simp [mapFill, hp, sortInts]
  · simp [foldl_append_singleton]

theorem mem_normalizeIntArray (ord : MapOrder) (arr : List Int) (x : Int) :
    x ∈ normalizeIntArray ord arr ↔ x ∈ arr := by
  rw [normalizeIntArray_eq, sortInts, List.mem_insertionSort, (ord.perm _).mem_iff, mem_mapFill]
  simp

theorem nodup_normalizeIntArray (ord : MapOrder) (arr : List Int) :
    (normalizeIntArray ord arr).Nodup := by
  rw [normalizeIntArray_eq, sortInts]
  exact ((List.perm_insertionSort _ _).trans (ord.perm _)).nodup_iff.mpr
    (nodup_mapFill arr [] List.nodup_nil)

theorem sorted_le_normalizeIntArray (ord : MapOrder) (arr : List Int) :
    (normalizeIntArray ord arr).Sorted (fun a b => a ≤ b) := by
  rw [normalizeIntArray_eq, sortInts]
  exact List.sorted_insertionSort _ _

theorem sorted_lt_normalizeIntArray (ord : MapOrder) (arr : List Int) :
    (normalizeIntArray ord arr).Sorted (fun a b => a < b) := by
  have h1 := sorted_le_normalizeIntArray ord arr
  have h2 := nodup_normalizeIntArray ord arr
  unfold List.Sorted at h1 ⊢
  unfold List.Nodup at h2
  exact (h1.and h2).imp (fun h => lt_of_le_of_ne h.1 h.2)

/-- Two strictly ascending lists with the same members are equal. -/
theorem eq_of_sorted_lt_of_mem_iff {l₁ l₂ : List Int}
    (h₁ : l₁.Sorted (fun a b => a < b)) (h₂ : l₂.Sorted (fun a b => a < b))
    (h : ∀ x, x ∈ l₁ ↔ x ∈ l₂) : l₁ = l₂ := by
  apply List.eq_of_perm_of_sorted (r := fun a b : Int => a ≤ b)
  · rw [List.perm_ext_iff_of_nodup h₁.nodup h₂.nodup]
    exact h
  · exact h₁.imp (fun h => le_of_lt h)
  · exact h₂.imp (fun h => le_of_lt h)

theorem normalizeIntArray_congr (o₁ o₂ : MapOrder) (a b : List Int)
    (h : ∀ x, x ∈ a ↔ x ∈ b) : normalizeIntArray o₁ a = normalizeIntArray o₂ b := by
  apply eq_of_sorted_lt_of_mem_iff (sorted_lt_normalizeIntArray _ _)
    (sorted_lt_normalizeIntArray _ _)
  intro x
  rw [mem_normalizeIntArray, mem_normalizeIntArray]
  exact h x

/-! ## Lemmas on the backing store -/

theorem different_eq_false_iff : ∀ (a b : List Int), a.length = b.length →
    (different a b = false ↔ a = b) := by
  intro a
  induction a with
  | nil =>
    intro b h
    cases b with
    | nil => simp [different]
    | cons y t => simp at h
  | cons x t ih =>
    intro b h
    cases b with
    | nil => simp at h
    | cons y u =>
      simp only [List.length_cons, add_left_inj] at h
      by_cases hxy : x = y
      · subst hxy
        simp [different, ih u h]
      · simp [different, hxy]

theorem removeLoop_store (fault : Fault) (nodeID : Int) (k : String) (dm : List Int) :
    ∀ (ks : List Int) (s : Store),
      (removeLoop (storeService fault) nodeID k dm ks s).2.nextID = s.nextID ∧
      (∀ n k', ¬(n = nodeID ∧ k' = k) →
        (removeLoop (storeService fault) nodeID k dm ks s).2.edges n k' = s.edges n k') ∧
      ((removeLoop (storeService fault) nodeID k dm ks s).1 = none →
        (removeLoop (storeService fault) nodeID k dm ks s).2.log
            = s.log ++ disCalls nodeID k (ks.filter (fun x => !mapGet dm x)) ∧
        ∀ x, x ∈ (removeLoop (storeService fault) nodeID k dm ks s).2.edges nodeID k ↔
          x ∈ s.edges nodeID k ∧ ¬(x ∈ ks ∧ mapGet dm x = false)) ∧
      (∀ msg, (removeLoop (storeService fault) nodeID k dm ks s).1 = some msg →
        ∃ R t e, (∀ x ∈ R, x ∈ ks ∧ mapGet dm x = false) ∧ (t ∈ ks ∧ mapGet dm t = false) ∧
          (removeLoop (storeService fault) nodeID k dm ks s).2.log
            = s.log ++ disCalls nodeID k R
              ++ [(Call.DisassociateNodeRelationship nodeID t k, some e)] ∧
          msg = "failed to remove " ++ k ++ " relationship: " ++ e) := by
  intro ks
  induction ks with
  | nil =>
    intro s
    simp [removeLoop, disCalls]
  | cons a rest ih =>
    intro s
    by_cases hm : mapGet dm a = true
    · have hstep : removeLoop (storeService fault) nodeID k dm (a :: rest) s
          = removeLoop (storeService fault) nodeID k dm rest s := by
        simp [removeLoop, hm]
      rw [hstep]
      obtain ⟨h1, h2, h3, h4⟩ := ih s
      refine ⟨h1, h2, ?_, ?_⟩
      · intro hn
        obtain ⟨hl, he⟩ := h3 hn
        refine ⟨?_, ?_⟩
        · rw [hl]; simp [List.filter_cons, hm]
        · intro x
          rw [he x]
          constructor
          · rintro ⟨hx, hnot⟩
            refine ⟨hx, ?_⟩
            rintro ⟨hxa, hxm⟩
            rcases List.mem_cons.mp hxa with rfl | hxr
            · rw [hm] at hxm; exact Bool.noConfusion hxm
            · exact hnot ⟨hxr, hxm⟩
          · rintro ⟨hx, hnot⟩
            exact ⟨hx, fun h => hnot ⟨List.mem_cons_of_mem _ h.1, h.2⟩⟩
      · intro msg hmsg
        obtain ⟨R, t, e, hR, ht, hl, he⟩ := h4 msg hmsg
        exact ⟨R, t, e, fun x hx => ⟨List.mem_cons_of_mem _ (hR x hx).1, (hR x hx).2⟩,
          ⟨List.mem_cons_of_mem _ ht.1, ht.2⟩, hl, he⟩
    · have hm' : mapGet dm a = false := by simpa using hm
      cases hf : fault s.log (Call.DisassociateNodeRelationship nodeID a k) with
      | some e =>
        have hstep : removeLoop (storeService fault) nodeID k dm (a :: rest) s
            = (some ("failed to remove " ++ k ++ " relationship: " ++ e),
                s.record (Call.DisassociateNodeRelationship nodeID a k) (some e)) := by
          simp [removeLoop, hm', storeService, hf]
        rw [hstep]
        refine ⟨rfl, fun _ _ _ => rfl, ?_, ?_⟩
        · intro h; simp at h
        · intro msg hmsg
          refine ⟨[], a, e, ?_, ⟨List.mem_cons_self _ _, hm'⟩, ?_, ?_⟩
          · intro x hx; simp at hx
          · simp [Store.record, disCalls]
          · simpa using hmsg.symm
      | none =>
        have hstep : removeLoop (storeService fault) nodeID k dm (a :: rest) s
            = removeLoop (storeService fault) nodeID k dm rest
                { (s.record (Call.DisassociateNodeRelationship nodeID a k) none) with
                  edges := deleteEdge s.edges nodeID a k } := by
          simp [removeLoop, hm', storeService, hf]
        rw [hstep]
        obtain ⟨h1, h2, h3, h4⟩ := ih { (s.record (Call.DisassociateNodeRelationship nodeID a k) none) with
                  edges := deleteEdge s.edges nodeID a k }
        refine ⟨?_, ?_, ?_, ?_⟩
        · rw [h1]; rfl
        · intro n k' hnk
          rw [h2 n k' hnk]
          simp [deleteEdge, hnk]
        · intro hn
          obtain ⟨hl, he⟩ := h3 hn
          refine ⟨?_, ?_⟩
          · rw [hl]; simp [List.filter_cons, hm', Store.record, disCalls]
          · intro x
            rw [he x]
            simp only [deleteEdge, and_self, if_true, List.mem_filter, decide_eq_true_eq,
              List.mem_cons]
            constructor
            · rintro ⟨⟨hx, hxa⟩, hnot⟩
              refine ⟨hx, ?_⟩
              rintro ⟨hxa' | hxr, hxm⟩
              · exact hxa hxa'
              · exact hnot ⟨hxr, hxm⟩
            · rintro ⟨hx, hnot⟩
              refine ⟨⟨hx, ?_⟩, fun h => hnot ⟨Or.inr h.1, h.2⟩⟩
              intro hxa
              exact hnot ⟨Or.inl hxa, by rw [hxa]; exact hm'⟩
        · intro msg hmsg
          obtain ⟨R, t, e, hR, ht, hl, he⟩ := h4 msg hmsg
          refine ⟨a :: R, t, e, ?_, ⟨List.mem_cons_of_mem _ ht.1, ht.2⟩, ?_, he⟩
          · intro x hx
            rcases List.mem_cons.mp hx with rfl | hxR
            · exact ⟨List.mem_cons_self _ _, hm'⟩
            · exact ⟨List.mem_cons_of_mem _ (hR x hxR).1, (hR x hxR).2⟩
          · rw [hl]; simp [Store.record, disCalls]

theorem addLoop_store (fault : Fault) (nodeID : Int) (k : String) (em : List Int) :
    ∀ (ks : List Int) (s : Store),
      (addLoop (storeService fault) nodeID k em ks s).2.nextID = s.nextID ∧
      (∀ n k', ¬(n = nodeID ∧ k' = k) →
        (addLoop (storeService fault) nodeID k em ks s).2.edges n k' = s.edges n k') ∧
      ((addLoop (storeService fault) nodeID k em ks s).1 = none →
        (addLoop (storeService fault) nodeID k em ks s).2.log
            = s.log ++ assocCalls nodeID k (ks.filter (fun x => !mapGet em x)) ∧
        ∀ x, x ∈ (addLoop (storeService fault) nodeID k em ks s).2.edges nodeID k ↔
          x ∈ s.edges nodeID k ∨ (x ∈ ks ∧ mapGet em x = false)) ∧
      (∀ msg, (addLoop (storeService fault) nodeID k em ks s).1 = some msg →
        ∃ A t e, (∀ x ∈ A, x ∈ ks ∧ mapGet em x = false) ∧ (t ∈ ks ∧ mapGet em t = false) ∧
          (addLoop (storeService fault) nodeID k em ks s).2.log
            = s.log ++ assocCalls nodeID k A
              ++ [(Call.AssociateNodeRelationship nodeID t k, some e)] ∧
          msg = "failed to create " ++ k ++ " relationship: " ++ e) := by
  intro ks
  induction ks with
  | nil =>
    intro s
    simp [addLoop, assocCalls]
  | cons a rest ih =>
    intro s
    by_cases hm : mapGet em a = true
    · have hstep : addLoop (storeService fault) nodeID k em (a :: rest) s
          = addLoop (storeService fault) nodeID k em rest s := by
        simp [addLoop, hm]
      rw [hstep]
      obtain ⟨h1, h2, h3, h4⟩ := ih s
      refine ⟨h1, h2, ?_, ?_⟩
      · intro hn
        obtain ⟨hl, he⟩ := h3 hn
        refine ⟨?_, ?_⟩
        · rw [hl]; simp [List.filter_cons, hm]
        · intro x
          rw [he x]
          constructor
          · rintro (hx | ⟨hxr, hxm⟩)
            · exact Or.inl hx
            · exact Or.inr ⟨List.mem_cons_of_mem _ hxr, hxm⟩
          · rintro (hx | ⟨hxa, hxm⟩)
            · exact Or.inl hx
            · rcases List.mem_cons.mp hxa with rfl | hxr
              · rw [hm] at hxm; exact Bool.noConfusion hxm
              · exact Or.inr ⟨hxr, hxm⟩
      · intro msg hmsg
        obtain ⟨A, t, e, hA, ht, hl, he⟩ := h4 msg hmsg
        exact ⟨A, t, e, fun x hx => ⟨List.mem_cons_of_mem _ (hA x hx).1, (hA x hx).2⟩,
          ⟨List.mem_cons_of_mem _ ht.1, ht.2⟩, hl, he⟩
    · have hm' : mapGet em a = false := by simpa using hm
      cases hf : fault s.log (Call.AssociateNodeRelationship nodeID a k) with
      | some e =>
        have hstep : addLoop (storeService fault) nodeID k em (a :: rest) s
            = (some ("failed to create " ++ k ++ " relationship: " ++ e),
                s.record (Call.AssociateNodeRelationship nodeID a k) (some e)) := by
          simp [addLoop, hm', storeService, hf]
        rw [hstep]
        refine ⟨rfl, fun _ _ _ => rfl, ?_, ?_⟩
        · intro h; simp at h
        · intro msg hmsg
          refine ⟨[], a, e, ?_, ⟨List.mem_cons_self _ _, hm'⟩, ?_, ?_⟩
          · intro x hx; simp at hx
          · simp [Store.record, assocCalls]
          · simpa using hmsg.symm
      | none =>
        have hstep : addLoop (storeService fault) nodeID k em (a :: rest) s
            = addLoop (storeService fault) nodeID k em rest
                { (s.record (Call.AssociateNodeRelationship nodeID a k) none) with
                  edges := insertEdge s.edges nodeID a k } := by
          simp [addLoop, hm', storeService, hf]
        rw [hstep]
        obtain ⟨h1, h2, h3, h4⟩ := ih { (s.record (Call.AssociateNodeRelationship nodeID a k) none) with
                  edges := insertEdge s.edges nodeID a k }
        refine ⟨?_, ?_, ?_, ?_⟩
        · rw [h1]; rfl
        · intro n k' hnk
          rw [h2 n k' hnk]
          simp [insertEdge, hnk]
        · intro hn
          obtain ⟨hl, he⟩ := h3 hn
          refine ⟨?_, ?_⟩
          · rw [hl]; simp [List.filter_cons, hm', Store.record, assocCalls]
          · intro x
            rw [he x]
            simp only [insertEdge, and_self, if_true, mem_mapSet, List.mem_cons]
            constructor
            · rintro ((hx | hxa) | ⟨hxr, hxm⟩)
              · exact Or.inl hx
              · exact Or.inr ⟨Or.inl hxa, by rw [hxa]; exact hm'⟩
              · exact Or.inr ⟨Or.inr hxr, hxm⟩
            · rintro (hx | ⟨hxa | hxr, hxm⟩)
              · exact Or.inl (Or.inl hx)
              · exact Or.inl (Or.inr hxa)
              · exact Or.inr ⟨hxr, hxm⟩
        · intro msg hmsg
          obtain ⟨A, t, e, hA, ht, hl, he⟩ := h4 msg hmsg
          refine ⟨a :: A, t, e, ?_, ⟨List.mem_cons_of_mem _ ht.1, ht.2⟩, ?_, he⟩
          · intro x hx
            rcases List.mem_cons.mp hx with rfl | hxA
            · exact ⟨List.mem_cons_self _ _, hm'⟩
            · exact ⟨List.mem_cons_of_mem _ (hA x hxA).1, (hA x hxA).2⟩
          · rw [hl]; simp [Store.record, assocCalls]

/-! ## Lemmas on attribute reads -/

theorem lookup_endpoint (k : String) (hk : k ∈ relationshipEndpoints) :
    resourceWorkflowJobTemplateNodeSchema.lookup k = some ⟨ValueType.TypeList, none⟩ := by
  simp only [relationshipEndpoints, List.mem_cons, List.mem_singleton, List.not_mem_nil,
    or_false] at hk
  rcases hk with rfl | rfl | rfl <;> rfl

theorem Get_endpoint (d : ResourceData) (k : String) (hk : k ∈ relationshipEndpoints) :
    d.Get k = some (Value.list (desiredOf d k)) := by
  have hl := lookup_endpoint k hk
  have hg : ∃ l, d.Get k = some (Value.list l) := by
    unfold ResourceData.Get
    rw [hl]
    cases hv : d.attrs k with
    | none => exact ⟨[], rfl⟩
    | some v =>
      cases v with
      | list l => exact ⟨l, by simp [Value.type]⟩
      | bool b => exact ⟨[], by simp [Value.type, ValueType.zero]⟩
      | int n => exact ⟨[], by simp [Value.type, ValueType.zero]⟩
      | string t => exact ⟨[], by simp [Value.type, ValueType.zero]⟩
  obtain ⟨l, hl'⟩ := hg
  simp [desiredOf, hl']

theorem getNodeList_endpoint (ord : MapOrder) (d : ResourceData) (k : String)
    (hk : k ∈ relationshipEndpoints) :
    getNodeList ord d k = .ok (normalizeIntArray ord (desiredOf d k)) := by
  have hl := lookup_endpoint k hk
  have hg := Get_endpoint d k hk
  unfold getNodeList ResourceData.GetOk
  rw [hl, hg]
  by_cases hz : desiredOf d k = []
  · simp [hz, ValueType.zero]
  · simp [hz, ValueType.zero, assertList, foldl_append_singleton]

theorem map_ID_map_mk (C : List Int) :
    (C.map WorkflowJobTemplateNode.mk).map (fun node => node.ID) = C := by
  induction C with
  | nil => rfl
  | cons a t ih => simp [ih]

theorem mapGet_mapFill_normalize (ord : MapOrder) (l : List Int) (x : Int) :
    mapGet (mapFill [] (normalizeIntArray ord l)) x = false ↔ x ∉ l := by
  simp [mapGet, mem_mapFill, mem_normalizeIntArray]

theorem mem_mapFill_normalize (ord : MapOrder) (l : List Int) (x : Int) :
    x ∈ mapFill [] (normalizeIntArray ord l) ↔ x ∈ l := by
  simp [mem_mapFill, mem_normalizeIntArray]

/-! ## One pass of the loop on the backing store -/

theorem justified_disCalls (nodeID : Int) (k : String) (C D R : List Int)
    (h : ∀ x ∈ R, x ∈ C ∧ x ∉ D) : ∀ en ∈ disCalls nodeID k R, Justified nodeID k C D en.1 := by
  intro en hen
  simp only [disCalls, List.mem_map] at hen
  obtain ⟨t, ht, rfl⟩ := hen
  exact ⟨rfl, rfl, h t ht⟩

theorem justified_assocCalls (nodeID : Int) (k : String) (C D A : List Int)
    (h : ∀ x ∈ A, x ∈ D ∧ x ∉ C) : ∀ en ∈ assocCalls nodeID k A, Justified nodeID k C D en.1 := by
  intro en hen
  simp only [assocCalls, List.mem_map] at hen
  obtain ⟨t, ht, rfl⟩ := hen
  exact ⟨rfl, rfl, h t ht⟩

theorem clean_disCalls (nodeID : Int) (k : String) (R : List Int) :
    ∀ en ∈ disCalls nodeID k R, en.2 = none := by
  intro en hen
  simp only [disCalls, List.mem_map] at hen
  obtain ⟨t, _, rfl⟩ := hen
  rfl

theorem clean_assocCalls (nodeID : Int) (k : String) (A : List Int) :
    ∀ en ∈ assocCalls nodeID k A, en.2 = none := by
  intro en hen
  simp only [assocCalls, List.mem_map] at hen
  obtain ⟨t, _, rfl⟩ := hen
  rfl

theorem reconcileEndpoint_store (fault : Fault) (iter : Nat → MapOrder) (nodeID : Int)
    (d : ResourceData) (i : Nat) (k : String) (s : Store) (hk : k ∈ relationshipEndpoints) :
    (reconcileEndpoint (storeService fault) iter nodeID d i k s).2.nextID = s.nextID ∧
    (∀ n k', ¬(n = nodeID ∧ k' = k) →
      (reconcileEndpoint (storeService fault) iter nodeID d i k s).2.edges n k' = s.edges n k') ∧
    (∃ calls,
      (reconcileEndpoint (storeService fault) iter nodeID d i k s).2.log = s.log ++ calls ∧
      (∀ en ∈ calls, Justified nodeID k (s.edges nodeID k) (desiredOf d k) en.1) ∧
      ((reconcileEndpoint (storeService fault) iter nodeID d i k s).1 = .ok none →
        ∃ R A, calls = (Call.GetNodeRelationships nodeID k, none)
              :: (disCalls nodeID k R ++ assocCalls nodeID k A) ∧
          R.Nodup ∧ A.Nodup ∧
          (∀ x, x ∈ R ↔ x ∈ s.edges nodeID k ∧ x ∉ desiredOf d k) ∧
          (∀ x, x ∈ A ↔ x ∈ desiredOf d k ∧ x ∉ s.edges nodeID k) ∧
          (∀ x, x ∈ (reconcileEndpoint (storeService fault) iter nodeID d i k s).2.edges nodeID k
            ↔ x ∈ desiredOf d k)) ∧
      (∀ msg, (reconcileEndpoint (storeService fault) iter nodeID d i k s).1 = .ok (some msg) →
        ∃ pre c e, calls = pre ++ [(c, some e)] ∧ (∀ en ∈ pre, en.2 = none) ∧
          msg = relationshipError c e)) ∧
    (∀ p, (reconcileEndpoint (storeService fault) iter nodeID d i k s).1 ≠ .error p) := by
  have hget := getNodeList_endpoint (iter (4 * i + 1)) d k hk
  cases hf : fault s.log (Call.GetNodeRelationships nodeID k) with
  | some e =>
    have hstep : reconcileEndpoint (storeService fault) iter nodeID d i k s
        = (.ok (some ("failed to get existing " ++ k ++ " relationships: " ++ e)),
            s.record (Call.GetNodeRelationships nodeID k) (some e)) := by
      simp [reconcileEndpoint, storeService, hf]
    rw [hstep]
    refine ⟨rfl, fun _ _ _ => rfl, ⟨[(Call.GetNodeRelationships nodeID k, some e)], rfl, ?_, ?_, ?_⟩, ?_⟩
    · intro en hen
      simp only [List.mem_singleton] at hen
      subst hen
      exact ⟨rfl, rfl⟩
    · intro h; simp at h
    · intro msg hmsg
      refine ⟨[], Call.GetNodeRelationships nodeID k, e, rfl, ?_, ?_⟩
      · intro en hen; simp at hen
      · simp only [Prod.mk.injEq, Except.ok.injEq, Option.some.injEq] at hmsg
        simpa [relationshipError] using hmsg.symm
    · intro p h; simp at h
  | none =>
    have hfetch : (storeService fault).GetNodeRelationships nodeID k s
        = (.ok ((s.edges nodeID k).map WorkflowJobTemplateNode.mk),
            s.record (Call.GetNodeRelationships nodeID k) none) := by
      simp [storeService, hf]
    by_cases hsc : (normalizeIntArray (iter (4 * i)) (s.edges nodeID k)).length
          = (normalizeIntArray (iter (4 * i + 1)) (desiredOf d k)).length
        ∧ different (normalizeIntArray (iter (4 * i)) (s.edges nodeID k))
            (normalizeIntArray (iter (4 * i + 1)) (desiredOf d k)) = false
    · have hstep : reconcileEndpoint (storeService fault) iter nodeID d i k s
          = (.ok none, s.record (Call.GetNodeRelationships nodeID k) none) := by
        unfold reconcileEndpoint
        rw [hfetch]
        simp only [map_ID_map_mk, hget]
        rw [if_pos hsc]
      have heq := (different_eq_false_iff _ _ hsc.1).mp hsc.2
      have hmem : ∀ x, x ∈ s.edges nodeID k ↔ x ∈ desiredOf d k := by
        intro x
        rw [← mem_normalizeIntArray (iter (4 * i)), heq, mem_normalizeIntArray]
      rw [hstep]
      refine ⟨rfl, fun _ _ _ => rfl, ⟨[(Call.GetNodeRelationships nodeID k, none)], rfl, ?_, ?_, ?_⟩, ?_⟩
      · intro en hen
        simp only [List.mem_singleton] at hen
        subst hen
        exact ⟨rfl, rfl⟩
      · intro _
        refine ⟨[], [], by simp [disCalls, assocCalls], List.nodup_nil, List.nodup_nil, ?_, ?_, ?_⟩
        · intro x; simp only [List.not_mem_nil, false_iff, not_and, not_not]; exact (hmem x).mp
        · intro x; simp only [List.not_mem_nil, false_iff, not_and, not_not]; exact (hmem x).mpr
        · intro x; exact hmem x
      · intro msg h; simp at h
      · intro p h; simp at h
    · have hstep : reconcileEndpoint (storeService fault) iter nodeID d i k s
          = (match removeLoop (storeService fault) nodeID k
                (mapFill [] (normalizeIntArray (iter (4 * i + 1)) (desiredOf d k)))
                ((iter (4 * i + 2)).visit
                  (mapFill [] (normalizeIntArray (iter (4 * i)) (s.edges nodeID k))))
                (s.record (Call.GetNodeRelationships nodeID k) none) with
            | (some err, s₂) => (.ok (some err), s₂)
            | (none, s₂) =>
              match addLoop (storeService fault) nodeID k
                  (mapFill [] (normalizeIntArray (iter (4 * i)) (s.edges nodeID k)))
                  ((iter (4 * i + 3)).visit
                    (mapFill [] (normalizeIntArray (iter (4 * i + 1)) (desiredOf d k)))) s₂ with
              | (some err, s₃) => (.ok (some err), s₃)
              | (none, s₃) => (.ok none, s₃)) := by
        unfold reconcileEndpoint
        rw [hfetch]
        simp only [map_ID_map_mk, hget]
        rw [if_neg hsc]
        generalize removeLoop (storeService fault) nodeID k
          (mapFill [] (normalizeIntArray (iter (4 * i + 1)) (desiredOf d k)))
          ((iter (4 * i + 2)).visit
            (mapFill [] (normalizeIntArray (iter (4 * i)) (s.edges nodeID k))))
          (s.record (Call.GetNodeRelationships nodeID k) none) = out₁
        rcases out₁ with ⟨_ | err, s₂⟩
        · simp only
          generalize addLoop (storeService fault) nodeID k
            (mapFill [] (normalizeIntArray (iter (4 * i)) (s.edges nodeID k)))
            ((iter (4 * i + 3)).visit
              (mapFill [] (normalizeIntArray (iter (4 * i + 1)) (desiredOf d k)))) s₂ = out₂
          rcases out₂ with ⟨_ | err, s₃⟩ <;> rfl
        · rfl
      rw [hstep]
      clear hstep
      have hrem := removeLoop_store fault nodeID k
        (mapFill [] (normalizeIntArray (iter (4 * i + 1)) (desiredOf d k)))
        ((iter (4 * i + 2)).visit
          (mapFill [] (normalizeIntArray (iter (4 * i)) (s.edges nodeID k))))
        (s.record (Call.GetNodeRelationships nodeID k) none)
      rcases hrl : removeLoop (storeService fault) nodeID k
        (mapFill [] (normalizeIntArray (iter (4 * i + 1)) (desiredOf d k)))
        ((iter (4 * i + 2)).visit
          (mapFill [] (normalizeIntArray (iter (4 * i)) (s.edges nodeID k))))
        (s.record (Call.GetNodeRelationships nodeID k) none) with ⟨r₁, s₂⟩
      rw [hrl] at hrem
      simp only at hrem
      obtain ⟨hr1, hr2, hr3, hr4⟩ := hrem
      have hvis_e : ∀ x, x ∈ (iter (4 * i + 2)).visit
          (mapFill [] (normalizeIntArray (iter (4 * i)) (s.edges nodeID k)))
          ↔ x ∈ s.edges nodeID k := by
        intro x
        rw [((iter (4 * i + 2)).perm _).mem_iff, mem_mapFill_normalize]
      have hvis_d : ∀ x, x ∈ (iter (4 * i + 3)).visit
          (mapFill [] (normalizeIntArray (iter (4 * i + 1)) (desiredOf d k)))
          ↔ x ∈ desiredOf d k := by
        intro x
        rw [((iter (4 * i + 3)).perm _).mem_iff, mem_mapFill_normalize]
      cases r₁ with
      | some err =>
        simp only
        obtain ⟨R, t, e, hR, ht, hl, he⟩ := hr4 err rfl
        refine ⟨hr1, hr2, ⟨(Call.GetNodeRelationships nodeID k, none) :: disCalls nodeID k R
            ++ [(Call.DisassociateNodeRelationship nodeID t k, some e)], ?_, ?_, ?_, ?_⟩, ?_⟩
        · rw [hl]; simp [Store.record]
        · intro en hen
          simp only [List.cons_append, List.mem_cons, List.mem_append, List.mem_singleton,
            List.not_mem_nil, or_false] at hen
          rcases hen with rfl | hen | rfl
          · exact ⟨rfl, rfl⟩
          · refine justified_disCalls nodeID k _ _ R ?_ en hen
            intro x hx
            exact ⟨(hvis_e x).mp (hR x hx).1, (mapGet_mapFill_normalize _ _ x).mp (hR x hx).2⟩
          · exact ⟨rfl, rfl, (hvis_e t).mp ht.1, (mapGet_mapFill_normalize _ _ t).mp ht.2⟩
        · intro h; simp at h
        · intro msg hmsg
          simp only [Except.ok.injEq, Option.some.injEq] at hmsg
          refine ⟨(Call.GetNodeRelationships nodeID k, none) :: disCalls nodeID k R,
            Call.DisassociateNodeRelationship nodeID t k, e, rfl, ?_, ?_⟩
          · intro en hen
            rcases List.mem_cons.mp hen with rfl | hen
            · rfl
            · exact clean_disCalls nodeID k R en hen
          · rw [← hmsg, he]; rfl
        · intro p h; simp at h
      | none =>
        simp only
        obtain ⟨hl, he⟩ := hr3 rfl
        have hadd := addLoop_store fault nodeID k
          (mapFill [] (normalizeIntArray (iter (4 * i)) (s.edges nodeID k)))
          ((iter (4 * i + 3)).visit
            (mapFill [] (normalizeIntArray (iter (4 * i + 1)) (desiredOf d k)))) s₂
        rcases hal : addLoop (storeService fault) nodeID k
          (mapFill [] (normalizeIntArray (iter (4 * i)) (s.edges nodeID k)))
          ((iter (4 * i + 3)).visit
            (mapFill [] (normalizeIntArray (iter (4 * i + 1)) (desiredOf d k)))) s₂ with ⟨r₂, s₃⟩
        rw [hal] at hadd
        simp only at hadd
        obtain ⟨ha1, ha2, ha3, ha4⟩ := hadd
        have hRprop : ∀ x, x ∈ ((iter (4 * i + 2)).visit
              (mapFill [] (normalizeIntArray (iter (4 * i)) (s.edges nodeID k)))).filter
                (fun x => !mapGet (mapFill [] (normalizeIntArray (iter (4 * i + 1))
                  (desiredOf d k))) x)
            ↔ x ∈ s.edges nodeID k ∧ x ∉ desiredOf d k := by
          intro x
          rw [List.mem_filter, hvis_e]
          simp only [Bool.not_eq_true', mapGet_mapFill_normalize]
        have hfr : ∀ n k', ¬(n = nodeID ∧ k' = k) → s₃.edges n k' = s.edges n k' := by
          intro n k' hnk
          rw [ha2 n k' hnk, hr2 n k' hnk]
          rfl
        cases r₂ with
        | some err =>
          simp only
          obtain ⟨A, t, e, hA, ht, hl2, he2⟩ := ha4 err rfl
          refine ⟨ha1.trans hr1, hfr, ⟨(Call.GetNodeRelationships nodeID k, none)
              :: disCalls nodeID k (((iter (4 * i + 2)).visit
                (mapFill [] (normalizeIntArray (iter (4 * i)) (s.edges nodeID k)))).filter
                  (fun x => !mapGet (mapFill [] (normalizeIntArray (iter (4 * i + 1))
                    (desiredOf d k))) x))
              ++ assocCalls nodeID k A
              ++ [(Call.AssociateNodeRelationship nodeID t k, some e)], ?_, ?_, ?_, ?_⟩, ?_⟩
          · rw [hl2, hl]; simp [Store.record]
          · intro en hen
            simp only [List.cons_append, List.mem_cons, List.mem_append, List.mem_singleton,
              List.not_mem_nil, or_false] at hen
            rcases hen with rfl | (hen | hen) | rfl
            · exact ⟨rfl, rfl⟩
            · exact justified_disCalls nodeID k _ _ _ (fun x hx => (hRprop x).mp hx) en hen
            · refine justified_assocCalls nodeID k _ _ A ?_ en hen
              intro x hx
              exact ⟨(hvis_d x).mp (hA x hx).1, (mapGet_mapFill_normalize _ _ x).mp (hA x hx).2⟩
            · exact ⟨rfl, rfl, (hvis_d t).mp ht.1, (mapGet_mapFill_normalize _ _ t).mp ht.2⟩
          · intro h; simp at h
          · intro msg hmsg
            simp only [Except.ok.injEq, Option.some.injEq] at hmsg
            refine ⟨_, Call.AssociateNodeRelationship nodeID t k, e, rfl, ?_, ?_⟩
            · intro en hen
              simp only [List.cons_append, List.mem_cons, List.mem_append] at hen
              rcases hen with rfl | hen | hen
              · rfl
              · exact clean_disCalls nodeID k _ en hen
              · exact clean_assocCalls nodeID k A en hen
            · rw [← hmsg, he2]; rfl
          · intro p h; simp at h
        | none =>
          simp only
          obtain ⟨hl2, he2⟩ := ha3 rfl
          refine ⟨ha1.trans hr1, hfr, ⟨(Call.GetNodeRelationships nodeID k, none)
              :: (disCalls nodeID k (((iter (4 * i + 2)).visit
                (mapFill [] (normalizeIntArray (iter (4 * i)) (s.edges nodeID k)))).filter
                  (fun x => !mapGet (mapFill [] (normalizeIntArray (iter (4 * i + 1))
                    (desiredOf d k))) x))
              ++ assocCalls nodeID k (((iter (4 * i + 3)).visit
                (mapFill [] (normalizeIntArray (iter (4 * i + 1)) (desiredOf d k)))).filter
                  (fun x => !mapGet (mapFill [] (normalizeIntArray (iter (4 * i))
                    (s.edges nodeID k))) x))), ?_, ?_, ?_, ?_⟩, ?_⟩
          · rw [hl2, hl]; simp [Store.record]
          · intro en hen
            simp only [List.mem_cons, List.mem_append] at hen
            rcases hen with rfl | hen | hen
            · exact ⟨rfl, rfl⟩
            · exact justified_disCalls nodeID k _ _ _ (fun x hx => (hRprop x).mp hx) en hen
            · refine justified_assocCalls nodeID k _ _ _ ?_ en hen
              intro x hx
              rw [List.mem_filter, hvis_d] at hx
              simp only [Bool.not_eq_true', mapGet_mapFill_normalize] at hx
              exact hx
          · intro _
            refine ⟨_, _, rfl, ?_, ?_, hRprop, ?_, ?_⟩
            · exact (((iter (4 * i + 2)).perm _).nodup_iff.mpr
                (nodup_mapFill _ [] List.nodup_nil)).filter _
            · exact (((iter (4 * i + 3)).perm _).nodup_iff.mpr
                (nodup_mapFill _ [] List.nodup_nil)).filter _
            · intro x
              rw [List.mem_filter, hvis_d]
              simp only [Bool.not_eq_true', mapGet_mapFill_normalize]
            · intro x
              rw [he2 x, he x, hvis_e, hvis_d]
              simp only [mapGet_mapFill_normalize, Store.record]
              tauto
          · intro msg h; simp at h
          · intro p h; simp at h

/-! ## The whole loop on the backing store -/

theorem endpoint_of_justified {nodeID : Int} {k : String} {C D : List Int} {c : Call}
    (h : Justified nodeID k C D c) : c.endpoint? = some k := by
  cases c with
  | GetNodeRelationships n k' => simp [Call.endpoint?, h.2]
  | DisassociateNodeRelationship n t k' => simp [Call.endpoint?, h.2.1]
  | AssociateNodeRelationship n t k' => simp [Call.endpoint?, h.2.1]
  | CreateWorkflowJobTemplateNode p => exact h.elim
  | UpdateWorkflowJobTemplateNode i p => exact h.elim
  | GetWorkflowJobTemplateNodeByID i => exact h.elim

theorem removedTargets_append (nodeID : Int) (k : String) (l₁ l₂ : Log) :
    removedTargets nodeID k (l₁ ++ l₂) = removedTargets nodeID k l₁ ++ removedTargets nodeID k l₂ := by
  simp [removedTargets, List.filterMap_append]

theorem addedTargets_append (nodeID : Int) (k : String) (l₁ l₂ : Log) :
    addedTargets nodeID k (l₁ ++ l₂) = addedTargets nodeID k l₁ ++ addedTargets nodeID k l₂ := by
  simp [addedTargets, List.filterMap_append]

theorem removedTargets_eq_nil (nodeID : Int) (k : String) (l : Log)
    (h : ∀ en ∈ l, en.1.endpoint? ≠ some k) : removedTargets nodeID k l = [] := by
  unfold removedTargets
  rw [List.filterMap_eq_nil_iff]
  intro en hen
  have hk := h en hen
  rcases en with ⟨c, e⟩
  cases c with
  | DisassociateNodeRelationship n t k' =>
    have hne : k' ≠ k := by simpa [Call.endpoint?] using hk
    simp [hne]
  | GetNodeRelationships n k' => rfl
  | AssociateNodeRelationship n t k' => rfl
  | CreateWorkflowJobTemplateNode p => rfl
  | UpdateWorkflowJobTemplateNode i p => rfl
  | GetWorkflowJobTemplateNodeByID i => rfl

theorem addedTargets_eq_nil (nodeID : Int) (k : String) (l : Log)
    (h : ∀ en ∈ l, en.1.endpoint? ≠ some k) : addedTargets nodeID k l = [] := by
  unfold addedTargets
  rw [List.filterMap_eq_nil_iff]
  intro en hen
  have hk := h en hen
  rcases en with ⟨c, e⟩
  cases c with
  | AssociateNodeRelationship n t k' =>
    have hne : k' ≠ k := by simpa [Call.endpoint?] using hk
    simp [hne]
  | GetNodeRelationships n k' => rfl
  | DisassociateNodeRelationship n t k' => rfl
  | CreateWorkflowJobTemplateNode p => rfl
  | UpdateWorkflowJobTemplateNode i p => rfl
  | GetWorkflowJobTemplateNodeByID i => rfl

theorem removedTargets_disCalls (nodeID : Int) (k : String) (R : List Int) :
    removedTargets nodeID k (disCalls nodeID k R) = R := by
  induction R with
  | nil => rfl
  | cons a t ih =>
    unfold removedTargets disCalls at ih ⊢
    simp [List.filterMap_cons, ih]

theorem removedTargets_assocCalls (nodeID : Int) (k : String) (A : List Int) :
    removedTargets nodeID k (assocCalls nodeID k A) = [] := by
  induction A with
  | nil => rfl
  | cons a t ih =>
    unfold removedTargets assocCalls at ih ⊢
    simp [List.filterMap_cons, ih]

theorem addedTargets_assocCalls (nodeID : Int) (k : String) (A : List Int) :
    addedTargets nodeID k (assocCalls nodeID k A) = A := by
  induction A with
  | nil => rfl
  | cons a t ih =>
    unfold addedTargets assocCalls at ih ⊢
    simp [List.filterMap_cons, ih]

theorem addedTargets_disCalls (nodeID : Int) (k : String) (R : List Int) :
    addedTargets nodeID k (disCalls nodeID k R) = [] := by
  induction R with
  | nil => rfl
  | cons a t ih =>
    unfold addedTargets disCalls at ih ⊢
    simp [List.filterMap_cons, ih]

theorem removedTargets_pass (nodeID : Int) (k : String) (R A : List Int) :
    removedTargets nodeID k ((Call.GetNodeRelationships nodeID k, none)
      :: (disCalls nodeID k R ++ assocCalls nodeID k A)) = R := by
  have h : removedTargets nodeID k ((Call.GetNodeRelationships nodeID k, none)
      :: (disCalls nodeID k R ++ assocCalls nodeID k A))
      = removedTargets nodeID k (disCalls nodeID k R ++ assocCalls nodeID k A) := by
    simp [removedTargets, List.filterMap_cons]
  rw [h, removedTargets_append, removedTargets_disCalls, removedTargets_assocCalls,
    List.append_nil]

theorem addedTargets_pass (nodeID : Int) (k : String) (R A : List Int) :
    addedTargets nodeID k ((Call.GetNodeRelationships nodeID k, none)
      :: (disCalls nodeID k R ++ assocCalls nodeID k A)) = A := by
  have h : addedTargets nodeID k ((Call.GetNodeRelationships nodeID k, none)
      :: (disCalls nodeID k R ++ assocCalls nodeID k A))
      = addedTargets nodeID k (disCalls nodeID k R ++ assocCalls nodeID k A) := by
    simp [addedTargets, List.filterMap_cons]
  rw [h, addedTargets_append, addedTargets_disCalls, addedTargets_assocCalls,
    List.nil_append]

theorem endpointLoop_store (fault : Fault) (iter : Nat → MapOrder) (nodeID : Int)
    (d : ResourceData) :
    ∀ (eps : List String) (i : Nat) (s : Store) (r : Except String (Option String))
      (s' : Store),
      (∀ k ∈ eps, k ∈ relationshipEndpoints) → eps.Nodup →
      endpointLoop (storeService fault) iter nodeID d i eps s = (r, s') →
      s'.nextID = s.nextID ∧
      (∀ n k', ¬(n = nodeID ∧ k' ∈ eps) → s'.edges n k' = s.edges n k') ∧
      ∃ calls, s'.log = s.log ++ calls ∧
        (∀ en ∈ calls, ∃ k ∈ eps,
          Justified nodeID k (s.edges nodeID k) (desiredOf d k) en.1) ∧
        (r = .ok none →
          (∀ en ∈ calls, en.2 = none) ∧
          ∀ k ∈ eps,
            (∀ x, x ∈ s'.edges nodeID k ↔ x ∈ desiredOf d k) ∧
            (removedTargets nodeID k calls).Nodup ∧
            (∀ x, x ∈ removedTargets nodeID k calls ↔
              x ∈ s.edges nodeID k ∧ x ∉ desiredOf d k) ∧
            (addedTargets nodeID k calls).Nodup ∧
            (∀ x, x ∈ addedTargets nodeID k calls ↔
              x ∈ desiredOf d k ∧ x ∉ s.edges nodeID k)) ∧
        (∀ msg, r = .ok (some msg) →
          ∃ p k q pre c e, eps = p ++ k :: q ∧ calls = pre ++ [(c, some e)] ∧
            (∀ en ∈ pre, en.2 = none) ∧
            Justified nodeID k (s.edges nodeID k) (desiredOf d k) c ∧
            msg = relationshipError c e ∧
            (∀ en ∈ calls, ∃ k'' ∈ p ++ [k],
              Justified nodeID k'' (s.edges nodeID k'') (desiredOf d k'') en.1) ∧
            (∀ k' ∈ p, ∀ x, x ∈ s'.edges nodeID k' ↔ x ∈ desiredOf d k') ∧
            (∀ k' ∈ q, s'.edges nodeID k' = s.edges nodeID k')) ∧
        (∀ p, r ≠ .error p) := by
  intro eps
  induction eps with
  | nil =>
    intro i s r s' _ _ hrun
    simp only [endpointLoop, Prod.mk.injEq] at hrun
    obtain ⟨rfl, rfl⟩ := hrun
    refine ⟨rfl, fun _ _ _ => rfl, [], by simp, ?_, ?_, ?_, ?_⟩
    · intro en hen; simp at hen
    · intro _
      exact ⟨fun en hen => by simp at hen, fun k hk => by simp at hk⟩
    · intro msg h; simp at h
    · intro p h; simp at h
  | cons k rest ih =>
    intro i s r s' heps hnd hrun
    have hkin : k ∈ relationshipEndpoints := heps k (List.mem_cons_self _ _)
    have hrest : ∀ k' ∈ rest, k' ∈ relationshipEndpoints :=
      fun k' hk' => heps k' (List.mem_cons_of_mem _ hk')
    obtain ⟨hknot, hndrest⟩ := List.nodup_cons.mp hnd
    have hspec := reconcileEndpoint_store fault iter nodeID d i k s hkin
    rcases hro : reconcileEndpoint (storeService fault) iter nodeID d i k s with ⟨r₁, s₁⟩
    rw [hro] at hspec
    simp only at hspec
    obtain ⟨hn1, hfr1, ⟨calls₁, hlog1, hj1, hok1, herr1⟩, hnp1⟩ := hspec
    have hep1 : ∀ en ∈ calls₁, en.1.endpoint? = some k :=
      fun en hen => endpoint_of_justified (hj1 en hen)
    cases r₁ with
    | error p => exact absurd rfl (hnp1 p)
    | ok o =>
      cases o with
      | some msg₁ =>
        have hout : (r, s') = (Except.ok (some msg₁), s₁) := by
          rw [← hrun]
          simp only [endpointLoop, hro]
        simp only [Prod.mk.injEq] at hout
        obtain ⟨rfl, rfl⟩ := hout
        refine ⟨hn1, ?_, calls₁, hlog1, ?_, ?_, ?_, ?_⟩
        · intro n k' hnk
          apply hfr1
          rintro ⟨hn, hk'⟩
          exact hnk ⟨hn, by rw [hk']; exact List.mem_cons_self _ _⟩
        · intro en hen
          exact ⟨k, List.mem_cons_self _ _, hj1 en hen⟩
        · intro h; simp at h
        · intro msg hmsg
          simp only [Except.ok.injEq, Option.some.injEq] at hmsg
          obtain ⟨pre, c, e, hc, hpre, hm⟩ := herr1 msg₁ rfl
          refine ⟨[], k, rest, pre, c, e, rfl, hc, hpre, ?_, ?_, ?_, ?_, ?_⟩
          · exact hj1 (c, some e) (by rw [hc]; simp)
          · rw [← hmsg]; exact hm
          · intro en hen
            exact ⟨k, by simp, hj1 en hen⟩
          · intro k' hk'; simp at hk'
          · intro k' hk'
            apply hfr1
            rintro ⟨_, hkk⟩
            exact hknot (hkk ▸ hk')
        · intro p h; simp at h
      | none =>
        have hrun' : endpointLoop (storeService fault) iter nodeID d (i + 1) rest s₁ = (r, s') := by
          rw [← hrun]
          simp only [endpointLoop, hro]
        obtain ⟨hn2, hfr2, calls₂, hlog2, hj2, hok2, herr2, hnp2⟩ :=
          ih (i + 1) s₁ r s' hrest hndrest hrun'
        obtain ⟨R, A, hcalls1, hRnd, hAnd, hRmem, hAmem, hedge1⟩ := hok1 rfl
        have hsame : ∀ k' ∈ rest, s₁.edges nodeID k' = s.edges nodeID k' := by
          intro k' hk'
          apply hfr1
          rintro ⟨_, hkk⟩
          exact hknot (hkk ▸ hk')
        have hj2' : ∀ en ∈ calls₂, ∃ k' ∈ rest,
            Justified nodeID k' (s.edges nodeID k') (desiredOf d k') en.1 := by
          intro en hen
          obtain ⟨k', hk', hjk⟩ := hj2 en hen
          exact ⟨k', hk', by rw [← hsame k' hk']; exact hjk⟩
        have hep2 : ∀ en ∈ calls₂, en.1.endpoint? ≠ some k := by
          intro en hen
          obtain ⟨k', hk', hjk⟩ := hj2 en hen
          rw [endpoint_of_justified hjk]
          intro hkk
          simp only [Option.some.injEq] at hkk
          exact hknot (hkk ▸ hk')
        have hedgek : s'.edges nodeID k = s₁.edges nodeID k := by
          apply hfr2
          rintro ⟨_, hkr⟩
          exact hknot hkr
        have hclean1 : ∀ en ∈ calls₁, en.2 = none := by
          intro en hen
          rw [hcalls1] at hen
          simp only [List.mem_cons, List.mem_append] at hen
          rcases hen with rfl | hen | hen
          · rfl
          · exact clean_disCalls nodeID k R en hen
          · exact clean_assocCalls nodeID k A en hen
        refine ⟨hn2.trans hn1, ?_, calls₁ ++ calls₂, ?_, ?_, ?_, ?_, hnp2⟩
        · intro n k' hnk
          rw [hfr2 n k' (fun h => hnk ⟨h.1, List.mem_cons_of_mem _ h.2⟩)]
          apply hfr1
          rintro ⟨hn, hk'⟩
          exact hnk ⟨hn, by rw [hk']; exact List.mem_cons_self _ _⟩
        · rw [hlog2, hlog1, List.append_assoc]
        · intro en hen
          rcases List.mem_append.mp hen with hen | hen
          · exact ⟨k, List.mem_cons_self _ _, hj1 en hen⟩
          · obtain ⟨k', hk', hjk⟩ := hj2' en hen
            exact ⟨k', List.mem_cons_of_mem _ hk', hjk⟩
        · intro hr
          obtain ⟨hclean2, hall2⟩ := hok2 hr
          refine ⟨?_, ?_⟩
          · intro en hen
            rcases List.mem_append.mp hen with hen | hen
            · exact hclean1 en hen
            · exact hclean2 en hen
          · intro k' hk'
            rcases List.mem_cons.mp hk' with rfl | hk'r
            · have hr0 : removedTargets nodeID k' (calls₁ ++ calls₂) = R := by
                rw [removedTargets_append, removedTargets_eq_nil nodeID k' calls₂ hep2, hcalls1,
                  removedTargets_pass, List.append_nil]
              have ha0 : addedTargets nodeID k' (calls₁ ++ calls₂) = A := by
                rw [addedTargets_append, addedTargets_eq_nil nodeID k' calls₂ hep2, hcalls1,
                  addedTargets_pass, List.append_nil]
              rw [hr0, ha0, hedgek]
              exact ⟨hedge1, hRnd, hRmem, hAnd, hAmem⟩
            · have hne : ∀ en ∈ calls₁, en.1.endpoint? ≠ some k' := by
                intro en hen
                rw [hep1 en hen]
                intro hkk
                simp only [Option.some.injEq] at hkk
                exact hknot (hkk ▸ hk'r)
              have hr0 : removedTargets nodeID k' (calls₁ ++ calls₂)
                  = removedTargets nodeID k' calls₂ := by
                rw [removedTargets_append, removedTargets_eq_nil nodeID k' calls₁ hne,
                  List.nil_append]
              have ha0 : addedTargets nodeID k' (calls₁ ++ calls₂)
                  = addedTargets nodeID k' calls₂ := by
                rw [addedTargets_append, addedTargets_eq_nil nodeID k' calls₁ hne,
                  List.nil_append]
              rw [hr0, ha0, ← hsame k' hk'r]
              exact hall2 k' hk'r
        · intro msg hmsg
          obtain ⟨p, k₀, q, pre, c, e, hdec, hc, hpre, hjc, hm, hjall, hp, hq⟩ := herr2 msg hmsg
          have hk₀ : k₀ ∈ rest := by rw [hdec]; simp
          refine ⟨k :: p, k₀, q, calls₁ ++ pre, c, e, ?_, ?_, ?_, ?_, hm, ?_, ?_, ?_⟩
          · rw [hdec]; rfl
          · rw [hc, List.append_assoc]
          · intro en hen
            rcases List.mem_append.mp hen with hen | hen
            · exact hclean1 en hen
            · exact hpre en hen
          · rw [← hsame k₀ hk₀]; exact hjc
          · intro en hen
            rcases List.mem_append.mp hen with hen | hen
            · exact ⟨k, by simp, hj1 en hen⟩
            · obtain ⟨k'', hk'', hjk⟩ := hjall en hen
              have hk''r : k'' ∈ rest := by
                rw [hdec]
                simp only [List.mem_append, List.mem_singleton] at hk''
                rcases hk'' with h | h
                · exact List.mem_append_left _ h
                · rw [h]; simp
              refine ⟨k'', ?_, by rw [← hsame k'' hk''r]; exact hjk⟩
              simp only [List.cons_append, List.mem_cons]
              exact Or.inr hk''
          · intro k' hk' x
            rcases List.mem_cons.mp hk' with rfl | hk'p
            · rw [hedgek]; exact hedge1 x
            · exact hp k' hk'p x
          · intro k' hk'
            have hk'r : k' ∈ rest := by rw [hdec]; simp [hk']
            rw [hq k' hk', hsame k' hk'r]

/-! ## Properties of `normalizeIntArray` -/

/-- C4: for every integer list `arr` and every map iteration order,
`normalizeIntArray(arr)` is strictly ascending, hence free of duplicates,
contains exactly the values that occur in `arr`, and is empty on the empty
list. -/
theorem normalizeIntArray_strict_exact (ord : MapOrder) (arr : List Int) :
    (normalizeIntArray ord arr).Sorted (fun a b => a < b) ∧
    (normalizeIntArray ord arr).Nodup ∧
    (∀ x, x ∈ normalizeIntArray ord arr ↔ x ∈ arr) ∧
    normalizeIntArray ord [] = [] :=
  ⟨sorted_lt_normalizeIntArray ord arr, nodup_normalizeIntArray ord arr,
    mem_normalizeIntArray ord arr, rfl⟩

/-- C5: `normalizeIntArray(A) = normalizeIntArray(B)` if and only if `A` and `B`
contain the same identifiers, whatever the map iteration orders; in particular
the result is the same for a permutation of the input, and adding a duplicate of
a present element does not change it. -/
theorem normalizeIntArray_eq_iff_same_set (o₁ o₂ : MapOrder) (A B : List Int) :
    (normalizeIntArray o₁ A = normalizeIntArray o₂ B ↔ ∀ x, x ∈ A ↔ x ∈ B) ∧
    (A.Perm B → normalizeIntArray o₁ A = normalizeIntArray o₂ B) ∧
    (∀ x, x ∈ B → normalizeIntArray o₁ (x :: B) = normalizeIntArray o₂ B) := by
  refine ⟨⟨?_, normalizeIntArray_congr o₁ o₂ A B⟩, ?_, ?_⟩
  · intro h x
    rw [← mem_normalizeIntArray o₁ A, h, mem_normalizeIntArray]
  · intro h
    exact normalizeIntArray_congr o₁ o₂ A B (fun x => h.mem_iff)
  · intro x hx
    apply normalizeIntArray_congr
    intro y
    simp only [List.mem_cons]
    constructor
    · rintro (rfl | h)
      · exact hx
      · exact h
    · exact Or.inr

/-- Witness of C5: a permutation and a duplicated element. -/
theorem normalizeIntArray_eq_iff_same_set_witness :
    normalizeIntArray reverseOrder [3, 1, 2] = normalizeIntArray insertionOrder [2, 3, 1] ∧
    normalizeIntArray reverseOrder [2, 1, 2] = normalizeIntArray insertionOrder [1, 2] :=
  ⟨(normalizeIntArray_eq_iff_same_set reverseOrder insertionOrder [3, 1, 2] [2, 3, 1]).2.1
      (by decide),
    (normalizeIntArray_eq_iff_same_set reverseOrder insertionOrder [1, 2] [1, 2]).2.2 2
      (by decide)⟩

/-- C6: normalisation is idempotent, `normalizeIntArray(normalizeIntArray(S))
= normalizeIntArray(S)`, whatever the map iteration orders of the three calls. -/
theorem normalizeIntArray_idempotent (o₁ o₂ o₃ : MapOrder) (S : List Int) :
    normalizeIntArray o₁ (normalizeIntArray o₂ S) = normalizeIntArray o₃ S :=
  normalizeIntArray_congr o₁ o₃ _ _ (fun x => mem_normalizeIntArray o₂ S x)

/-! ## Properties of `handleNodeRelationships` on the backing store -/

theorem nodup_relationshipEndpoints : relationshipEndpoints.Nodup := by decide

theorem handleNodeRelationships_store (fault : Fault) (iter : Nat → MapOrder) (nodeID : Int)
    (d : ResourceData) (s : Store) (r : Except String (Option String)) (s' : Store)
    (h : handleNodeRelationships (storeService fault) iter nodeID d s = (r, s')) :
    s'.nextID = s.nextID ∧
    (∀ n k', ¬(n = nodeID ∧ k' ∈ relationshipEndpoints) → s'.edges n k' = s.edges n k') ∧
    ∃ calls, s'.log = s.log ++ calls ∧
      (∀ en ∈ calls, ∃ k ∈ relationshipEndpoints,
        Justified nodeID k (s.edges nodeID k) (desiredOf d k) en.1) ∧
      (r = .ok none →
        (∀ en ∈ calls, en.2 = none) ∧
        ∀ k ∈ relationshipEndpoints,
          (∀ x, x ∈ s'.edges nodeID k ↔ x ∈ desiredOf d k) ∧
          (removedTargets nodeID k calls).Nodup ∧
          (∀ x, x ∈ removedTargets nodeID k calls ↔
            x ∈ s.edges nodeID k ∧ x ∉ desiredOf d k) ∧
          (addedTargets nodeID k calls).Nodup ∧
          (∀ x, x ∈ addedTargets nodeID k calls ↔
            x ∈ desiredOf d k ∧ x ∉ s.edges nodeID k)) ∧
      (∀ msg, r = .ok (some msg) →
        ∃ p k q pre c e, relationshipEndpoints = p ++ k :: q ∧ calls = pre ++ [(c, some e)] ∧
          (∀ en ∈ pre, en.2 = none) ∧
          Justified nodeID k (s.edges nodeID k) (desiredOf d k) c ∧
          msg = relationshipError c e ∧
          (∀ en ∈ calls, ∃ k'' ∈ p ++ [k],
            Justified nodeID k'' (s.edges nodeID k'') (desiredOf d k'') en.1) ∧
          (∀ k' ∈ p, ∀ x, x ∈ s'.edges nodeID k' ↔ x ∈ desiredOf d k') ∧
          (∀ k' ∈ q, s'.edges nodeID k' = s.edges nodeID k')) ∧
      (∀ p, r ≠ .error p) :=
  endpointLoop_store fault iter nodeID d relationshipEndpoints 0 s r s' (fun _ hk => hk)
    nodup_relationshipEndpoints h

theorem drop_log_eq {l calls l' : Log} (h : l' = l ++ calls) : l'.drop l.length = calls := by
  rw [h, List.drop_left]

theorem named_kind_mem {k : String}
    (hk : k = "success_nodes" ∨ k = "failure_nodes" ∨ k = "always_nodes") :
    k ∈ relationshipEndpoints := by
  rcases hk with rfl | rfl | rfl <;> decide

theorem mem_named_kind {k : String} (hk : k ∈ relationshipEndpoints) :
    k = "success_nodes" ∨ k = "failure_nodes" ∨ k = "always_nodes" := by
  simpa [relationshipEndpoints] using hk

theorem removeLoop_never_fails (fault : Fault) (hnf : ∀ log c, fault log c = none)
    (nodeID : Int) (k : String) (dm : List Int) :
    ∀ (ks : List Int) (s : Store),
      (removeLoop (storeService fault) nodeID k dm ks s).1 = none := by
  intro ks
  induction ks with
  | nil => intro s; rfl
  | cons a rest ih =>
    intro s
    by_cases hm : mapGet dm a = true
    · have hstep : removeLoop (storeService fault) nodeID k dm (a :: rest) s
          = removeLoop (storeService fault) nodeID k dm rest s := by
        simp [removeLoop, hm]
      rw [hstep]
      exact ih s
    · have hm' : mapGet dm a = false := by simpa using hm
      have hstep : removeLoop (storeService fault) nodeID k dm (a :: rest) s
          = removeLoop (storeService fault) nodeID k dm rest
              { (s.record (Call.DisassociateNodeRelationship nodeID a k) none) with
                edges := deleteEdge s.edges nodeID a k } := by
        simp [removeLoop, hm', storeService, hnf]
      rw [hstep]
      exact ih _

theorem addLoop_never_fails (fault : Fault) (hnf : ∀ log c, fault log c = none)
    (nodeID : Int) (k : String) (em : List Int) :
    ∀ (ks : List Int) (s : Store),
      (addLoop (storeService fault) nodeID k em ks s).1 = none := by
  intro ks
  induction ks with
  | nil => intro s; rfl
  | cons a rest ih =>
    intro s
    by_cases hm : mapGet em a = true
    · have hstep : addLoop (storeService fault) nodeID k em (a :: rest) s
          = addLoop (storeService fault) nodeID k em rest s := by
        simp [addLoop, hm]
      rw [hstep]
      exact ih s
    · have hm' : mapGet em a = false := by simpa using hm
      have hstep : addLoop (storeService fault) nodeID k em (a :: rest) s
          = addLoop (storeService fault) nodeID k em rest
              { (s.record (Call.AssociateNodeRelationship nodeID a k) none) with
                edges := insertEdge s.edges nodeID a k } := by
        simp [addLoop, hm', storeService, hnf]
      rw [hstep]
      exact ih _

theorem reconcileEndpoint_never_fails (fault : Fault) (hnf : ∀ log c, fault log c = none)
    (iter : Nat → MapOrder) (nodeID : Int) (d : ResourceData) (i : Nat) (k : String)
    (s : Store) (hk : k ∈ relationshipEndpoints) :
    (reconcileEndpoint (storeService fault) iter nodeID d i k s).1 = .ok none := by
  have hget := getNodeList_endpoint (iter (4 * i + 1)) d k hk
  have hfetch : (storeService fault).GetNodeRelationships nodeID k s
      = (.ok ((s.edges nodeID k).map WorkflowJobTemplateNode.mk),
          s.record (Call.GetNodeRelationships nodeID k) none) := by
    simp [storeService, hnf]
  unfold reconcileEndpoint
  rw [hfetch]
  simp only [map_ID_map_mk, hget]
  split
  · rfl
  · have hr := removeLoop_never_fails fault hnf nodeID k
      (mapFill [] (normalizeIntArray (iter (4 * i + 1)) (desiredOf d k)))
      ((iter (4 * i + 2)).visit
        (mapFill [] (normalizeIntArray (iter (4 * i)) (s.edges nodeID k))))
      (s.record (Call.GetNodeRelationships nodeID k) none)
    rcases hrl : removeLoop (storeService fault) nodeID k
      (mapFill [] (normalizeIntArray (iter (4 * i + 1)) (desiredOf d k)))
      ((iter (4 * i + 2)).visit
        (mapFill [] (normalizeIntArray (iter (4 * i)) (s.edges nodeID k))))
      (s.record (Call.GetNodeRelationships nodeID k) none) with ⟨r₁, s₂⟩
    rw [hrl] at hr
    simp only at hr
    subst hr
    simp only
    have ha := addLoop_never_fails fault hnf nodeID k
      (mapFill [] (normalizeIntArray (iter (4 * i)) (s.edges nodeID k)))
      ((iter (4 * i + 3)).visit
        (mapFill [] (normalizeIntArray (iter (4 * i + 1)) (desiredOf d k)))) s₂
    rcases hal : addLoop (storeService fault) nodeID k
      (mapFill [] (normalizeIntArray (iter (4 * i)) (s.edges nodeID k)))
      ((iter (4 * i + 3)).visit
        (mapFill [] (normalizeIntArray (iter (4 * i + 1)) (desiredOf d k)))) s₂ with ⟨r₂, s₃⟩
    rw [hal] at ha
    simp only at ha
    subst ha
    rfl

theorem endpointLoop_never_fails (fault : Fault) (hnf : ∀ log c, fault log c = none)
    (iter : Nat → MapOrder) (nodeID : Int) (d : ResourceData) :
    ∀ (eps : List String) (i : Nat) (s : Store),
      (∀ k ∈ eps, k ∈ relationshipEndpoints) →
      (endpointLoop (storeService fault) iter nodeID d i eps s).1 = .ok none := by
  intro eps
  induction eps with
  | nil => intro i s _; rfl
  | cons k rest ih =>
    intro i s heps
    have h1 := reconcileEndpoint_never_fails fault hnf iter nodeID d i k s
      (heps k (List.mem_cons_self _ _))
    rcases hro : reconcileEndpoint (storeService fault) iter nodeID d i k s with ⟨r₁, s₁⟩
    rw [hro] at h1
    simp only at h1
    subst h1
    have hstep : endpointLoop (storeService fault) iter nodeID d i (k :: rest) s
        = endpointLoop (storeService fault) iter nodeID d (i + 1) rest s₁ := by
      simp only [endpointLoop, hro]
    rw [hstep]
    exact ih (i + 1) s₁ (fun k' hk' => heps k' (List.mem_cons_of_mem _ hk'))

/-- C1: if `handleNodeRelationships` returns no error against the backing store,
then for each of the kinds `success_nodes`, `failure_nodes` and `always_nodes`
the stored target set of (node, kind) is the set of identifiers of the desired
list of that kind, so its normalised sequence is `normalizeIntArray(desired)`;
from any starting store, for any desired lists, any map iteration orders and
any fault. -/
theorem handleNodeRelationships_converges (fault : Fault) (iter : Nat → MapOrder)
    (ord : MapOrder) (nodeID : Int) (d : ResourceData) (s s' : Store)
    (h : handleNodeRelationships (storeService fault) iter nodeID d s = (.ok none, s'))
    (k : String) (hk : k = "success_nodes" ∨ k = "failure_nodes" ∨ k = "always_nodes")
    (desired : List Int) (hd : d.Get k = some (Value.list desired)) :
    (∀ x, x ∈ s'.edges nodeID k ↔ x ∈ desired) ∧
    normalizeIntArray ord (s'.edges nodeID k) = normalizeIntArray ord desired := by
  have hdes : desiredOf d k = desired := by simp [desiredOf, hd]
  obtain ⟨_, _, calls, _, _, hok, _, _⟩ := handleNodeRelationships_store fault iter nodeID d s _ s' h
  have hmem := ((hok rfl).2 k (named_kind_mem hk)).1
  rw [hdes] at hmem
  exact ⟨hmem, normalizeIntArray_congr ord ord _ _ hmem⟩

/-- Witness of C1: from the store `[3,1,2,2]`, `[6]`, `[]` to the desired lists
`[2,3,4]`, `[4]`, `[5,5]`, for the kinds `failure_nodes` and `always_nodes`. -/
theorem handleNodeRelationships_converges_witness :
    ((∀ x, x ∈ (handleNodeRelationships (storeService noFault) (fun _ => reverseOrder) 1
        (desiredData [2, 3, 4] [4] [5, 5]) (storeOf 1 [3, 1, 2, 2] [6] [])).2.edges 1
          "failure_nodes" ↔ x ∈ [4]) ∧
      normalizeIntArray insertionOrder
        ((handleNodeRelationships (storeService noFault) (fun _ => reverseOrder) 1
          (desiredData [2, 3, 4] [4] [5, 5]) (storeOf 1 [3, 1, 2, 2] [6] [])).2.edges 1
            "failure_nodes")
        = normalizeIntArray insertionOrder [4]) ∧
    ((∀ x, x ∈ (handleNodeRelationships (storeService noFault) (fun _ => reverseOrder) 1
        (desiredData [2, 3, 4] [4] [5, 5]) (storeOf 1 [3, 1, 2, 2] [6] [])).2.edges 1
          "always_nodes" ↔ x ∈ [5, 5]) ∧
      normalizeIntArray insertionOrder
        ((handleNodeRelationships (storeService noFault) (fun _ => reverseOrder) 1
          (desiredData [2, 3, 4] [4] [5, 5]) (storeOf 1 [3, 1, 2, 2] [6] [])).2.edges 1
            "always_nodes")
        = normalizeIntArray insertionOrder [5, 5]) :=
  ⟨handleNodeRelationships_converges noFault (fun _ => reverseOrder) insertionOrder 1
      (desiredData [2, 3, 4] [4] [5, 5]) (storeOf 1 [3, 1, 2, 2] [6] []) _ rfl
      "failure_nodes" (Or.inr (Or.inl rfl)) [4] rfl,
    handleNodeRelationships_converges noFault (fun _ => reverseOrder) insertionOrder 1
      (desiredData [2, 3, 4] [4] [5, 5]) (storeOf 1 [3, 1, 2, 2] [6] []) _ rfl
      "always_nodes" (Or.inr (Or.inr rfl)) [5, 5] rfl⟩

/-- C2: under a fault that fails no call, no call of a run of
`handleNodeRelationships` fails; and when no remote call of the run fails, the
run returns no error and, for each of the kinds `success_nodes`, `failure_nodes`
and `always_nodes`, with `C` the stored list that is fetched and `D` the desired
list, the disassociate calls it issued for the kind are one for each identifier
in `C` and not in `D`, the associate calls are one for each identifier in `D` and
not in `C`, the two sets are disjoint and `(C − toRemove) ∪ toAdd = D`; every
associate or disassociate call in the log is one of these, for the node and one
of the three kinds. -/
theorem handleNodeRelationships_minimal_diff (fault : Fault) (iter : Nat → MapOrder)
    (nodeID : Int) (d : ResourceData) (s s' : Store) (r : Except String (Option String))
    (h : handleNodeRelationships (storeService fault) iter nodeID d s = (r, s')) :
    ((∀ log c, fault log c = none) → ∀ en ∈ s'.log.drop s.log.length, en.2 = none) ∧
    ((∀ en ∈ s'.log.drop s.log.length, en.2 = none) →
      r = .ok none ∧
      (∀ k, k = "success_nodes" ∨ k = "failure_nodes" ∨ k = "always_nodes" →
        ∀ D, d.Get k = some (Value.list D) →
          (removedTargets nodeID k (s'.log.drop s.log.length)).Nodup ∧
          (∀ x, x ∈ removedTargets nodeID k (s'.log.drop s.log.length) ↔
            x ∈ s.edges nodeID k ∧ x ∉ D) ∧
          (addedTargets nodeID k (s'.log.drop s.log.length)).Nodup ∧
          (∀ x, x ∈ addedTargets nodeID k (s'.log.drop s.log.length) ↔
            x ∈ D ∧ x ∉ s.edges nodeID k) ∧
          (∀ x, ¬(x ∈ removedTargets nodeID k (s'.log.drop s.log.length) ∧
            x ∈ addedTargets nodeID k (s'.log.drop s.log.length))) ∧
          (∀ x, (x ∈ s.edges nodeID k ∧
              x ∉ removedTargets nodeID k (s'.log.drop s.log.length))
            ∨ x ∈ addedTargets nodeID k (s'.log.drop s.log.length) ↔ x ∈ D)) ∧
      (∀ en ∈ s'.log.drop s.log.length, en.1.isMutation = true →
        ∃ k', (k' = "success_nodes" ∨ k' = "failure_nodes" ∨ k' = "always_nodes") ∧
          Justified nodeID k' (s.edges nodeID k') (desiredOf d k') en.1)) := by
  obtain ⟨_, _, calls, hlog, hj, hok, herr, hnp⟩ :=
    handleNodeRelationships_store fault iter nodeID d s r s' h
  rw [drop_log_eq hlog]
  refine ⟨?_, ?_⟩
  · intro hnf
    have hr := endpointLoop_never_fails fault hnf iter nodeID d relationshipEndpoints 0 s
      (fun _ hk => hk)
    unfold handleNodeRelationships at h
    rw [h] at hr
    exact (hok hr).1
  · intro hclean
    have hr : r = .ok none := by
      rcases r with p | _ | msg
      · exact absurd rfl (hnp p)
      · rfl
      · obtain ⟨_, _, _, pre, c, e, _, hc, _⟩ := herr msg rfl
        have := hclean (c, some e) (by rw [hc]; simp)
        simp at this
    refine ⟨hr, ?_, ?_⟩
    · intro k hk D hD
      have hdes : desiredOf d k = D := by simp [desiredOf, hD]
      obtain ⟨_, hRnd, hR, hAnd, hA⟩ := (hok hr).2 k (named_kind_mem hk)
      rw [hdes] at hR hA
      refine ⟨hRnd, hR, hAnd, hA, ?_, ?_⟩
      · intro x hx
        exact ((hR x).mp hx.1).2 ((hA x).mp hx.2).1
      · intro x
        rw [hR x, hA x]
        tauto
    · intro en hen _
      obtain ⟨k', hk', hjk⟩ := hj en hen
      exact ⟨k', mem_named_kind hk', hjk⟩

/-- Witness of C2: under the fault that fails no call, the current list
`[3,1,2,2]` and the desired list `[2,3,4]` of `success_nodes` give the single
removal `1` and the single addition `4`, and the current list `[6]` and the
desired list `[4]` of `failure_nodes` give the removal `6` and the addition `4`. -/
theorem handleNodeRelationships_minimal_diff_witness :
    (∀ en ∈ (handleNodeRelationships (storeService noFault) (fun _ => reverseOrder) 1
        (desiredData [2, 3, 4] [4] []) (storeOf 1 [3, 1, 2, 2] [6] [])).2.log.drop
          (storeOf 1 [3, 1, 2, 2] [6] []).log.length, en.2 = none) ∧
    (handleNodeRelationships (storeService noFault) (fun _ => reverseOrder) 1
      (desiredData [2, 3, 4] [4] []) (storeOf 1 [3, 1, 2, 2] [6] [])).1 = .ok none ∧
    removedTargets 1 "success_nodes"
      (handleNodeRelationships (storeService noFault) (fun _ => reverseOrder) 1
        (desiredData [2, 3, 4] [4] []) (storeOf 1 [3, 1, 2, 2] [6] [])).2.log = [1] ∧
    addedTargets 1 "success_nodes"
      (handleNodeRelationships (storeService noFault) (fun _ => reverseOrder) 1
        (desiredData [2, 3, 4] [4] []) (storeOf 1 [3, 1, 2, 2] [6] [])).2.log = [4] ∧
    removedTargets 1 "failure_nodes"
      (handleNodeRelationships (storeService noFault) (fun _ => reverseOrder) 1
        (desiredData [2, 3, 4] [4] []) (storeOf 1 [3, 1, 2, 2] [6] [])).2.log = [6] ∧
    addedTargets 1 "failure_nodes"
      (handleNodeRelationships (storeService noFault) (fun _ => reverseOrder) 1
        (desiredData [2, 3, 4] [4] []) (storeOf 1 [3, 1, 2, 2] [6] [])).2.log = [4] ∧
    (∀ x, x ∈ removedTargets 1 "failure_nodes"
      ((handleNodeRelationships (storeService noFault) (fun _ => reverseOrder) 1
        (desiredData [2, 3, 4] [4] []) (storeOf 1 [3, 1, 2, 2] [6] [])).2.log.drop
          (storeOf 1 [3, 1, 2, 2] [6] []).log.length) ↔
      x ∈ (storeOf 1 [3, 1, 2, 2] [6] []).edges 1 "failure_nodes" ∧ x ∉ [4]) :=
  ⟨(handleNodeRelationships_minimal_diff noFault (fun _ => reverseOrder) 1
      (desiredData [2, 3, 4] [4] []) (storeOf 1 [3, 1, 2, 2] [6] []) _ _ rfl).1
      (fun _ _ => rfl),
    ((handleNodeRelationships_minimal_diff noFault (fun _ => reverseOrder) 1
      (desiredData [2, 3, 4] [4] []) (storeOf 1 [3, 1, 2, 2] [6] []) _ _ rfl).2
      (by decide)).1,
    by decide, by decide, by decide, by decide,
    ((((handleNodeRelationships_minimal_diff noFault (fun _ => reverseOrder) 1
      (desiredData [2, 3, 4] [4] []) (storeOf 1 [3, 1, 2, 2] [6] []) _ _ rfl).2
      (by decide)).2.1 "failure_nodes" (Or.inr (Or.inl rfl)) [4] rfl).2.1)⟩

theorem reconcileEndpoint_same (fault : Fault) (iter : Nat → MapOrder) (nodeID : Int)
    (d : ResourceData) (i : Nat) (k : String) (s : Store) (hk : k ∈ relationshipEndpoints)
    (hsame : ∀ x, x ∈ s.edges nodeID k ↔ x ∈ desiredOf d k) :
    (reconcileEndpoint (storeService fault) iter nodeID d i k s).2.edges = s.edges := by
  have hget := getNodeList_endpoint (iter (4 * i + 1)) d k hk
  cases hf : fault s.log (Call.GetNodeRelationships nodeID k) with
  | some e =>
    have hstep : reconcileEndpoint (storeService fault) iter nodeID d i k s
        = (.ok (some ("failed to get existing " ++ k ++ " relationships: " ++ e)),
            s.record (Call.GetNodeRelationships nodeID k) (some e)) := by
      simp [reconcileEndpoint, storeService, hf]
    rw [hstep]
    rfl
  | none =>
    have hfetch : (storeService fault).GetNodeRelationships nodeID k s
        = (.ok ((s.edges nodeID k).map WorkflowJobTemplateNode.mk),
            s.record (Call.GetNodeRelationships nodeID k) none) := by
      simp [storeService, hf]
    have heq : normalizeIntArray (iter (4 * i)) (s.edges nodeID k)
        = normalizeIntArray (iter (4 * i + 1)) (desiredOf d k) :=
      normalizeIntArray_congr _ _ _ _ hsame
    have hsc : (normalizeIntArray (iter (4 * i)) (s.edges nodeID k)).length
          = (normalizeIntArray (iter (4 * i + 1)) (desiredOf d k)).length
        ∧ different (normalizeIntArray (iter (4 * i)) (s.edges nodeID k))
            (normalizeIntArray (iter (4 * i + 1)) (desiredOf d k)) = false := by
      refine ⟨by rw [heq], ?_⟩
      rw [different_eq_false_iff _ _ (by rw [heq])]
      exact heq
    have hstep : reconcileEndpoint (storeService fault) iter nodeID d i k s
        = (.ok none, s.record (Call.GetNodeRelationships nodeID k) none) := by
      unfold reconcileEndpoint
      rw [hfetch]
      simp only [map_ID_map_mk, hget]
      rw [if_pos hsc]
    rw [hstep]
    rfl

theorem endpointLoop_same (fault : Fault) (iter : Nat → MapOrder) (nodeID : Int)
    (d : ResourceData) :
    ∀ (eps : List String) (i : Nat) (s : Store),
      (∀ k ∈ eps, k ∈ relationshipEndpoints) →
      (∀ k ∈ eps, ∀ x, x ∈ s.edges nodeID k ↔ x ∈ desiredOf d k) →
      (endpointLoop (storeService fault) iter nodeID d i eps s).2.edges = s.edges := by
  intro eps
  induction eps with
  | nil => intro i s _ _; rfl
  | cons k rest ih =>
    intro i s heps hsame
    have h1 := reconcileEndpoint_same fault iter nodeID d i k s
      (heps k (List.mem_cons_self _ _)) (hsame k (List.mem_cons_self _ _))
    rcases hro : reconcileEndpoint (storeService fault) iter nodeID d i k s with ⟨r₁, s₁⟩
    rw [hro] at h1
    simp only at h1
    have hstep : endpointLoop (storeService fault) iter nodeID d i (k :: rest) s
        = match r₁ with
          | .ok none => endpointLoop (storeService fault) iter nodeID d (i + 1) rest s₁
          | _ => (r₁, s₁) := by
      simp only [endpointLoop, hro]
      rcases r₁ with _ | _ | _ <;> rfl
    rw [hstep]
    rcases r₁ with p | _ | msg
    · exact h1
    · simp only
      rw [ih (i + 1) s₁ (fun k' hk' => heps k' (List.mem_cons_of_mem _ hk'))
        (fun k' hk' x => by rw [h1]; exact hsame k' (List.mem_cons_of_mem _ hk') x), h1]
    · exact h1

theorem justified_mutation_not_same {nodeID : Int} {k : String} {C D : List Int} {c : Call}
    (hj : Justified nodeID k C D c) (hm : c.isMutation = true) (hsame : ∀ x, x ∈ C ↔ x ∈ D) :
    False := by
  cases c with
  | GetNodeRelationships n k' => simp [Call.isMutation] at hm
  | DisassociateNodeRelationship n t k' => exact hj.2.2.2 ((hsame t).mp hj.2.2.1)
  | AssociateNodeRelationship n t k' => exact hj.2.2.2 ((hsame t).mpr hj.2.2.1)
  | CreateWorkflowJobTemplateNode p => exact hj.elim
  | UpdateWorkflowJobTemplateNode i p => exact hj.elim
  | GetWorkflowJobTemplateNodeByID i => exact hj.elim

/-- C3: whatever `handleNodeRelationships` returns, for a kind whose fetched list
and desired list contain the same identifiers (any order, any duplicates) it
issues no associate and no disassociate call; and when a run returns no error, a
second run with the same desired lists against the store it left issues no
associate or disassociate call at all and leaves the stored edges unchanged,
whatever fault and iteration orders the second run meets. -/
theorem handleNodeRelationships_noop (fault : Fault) (iter : Nat → MapOrder) (nodeID : Int)
    (d : ResourceData) (s s' : Store) (r : Except String (Option String))
    (h : handleNodeRelationships (storeService fault) iter nodeID d s = (r, s')) :
    (∀ k ∈ relationshipEndpoints, ∀ D, d.Get k = some (Value.list D) →
      (∀ x, x ∈ s.edges nodeID k ↔ x ∈ D) →
      ∀ en ∈ s'.log.drop s.log.length, en.1.isMutation = true → en.1.endpoint? ≠ some k) ∧
    (r = .ok none → ∀ (fault₂ : Fault) (iter₂ : Nat → MapOrder),
      (∀ en ∈ (handleNodeRelationships (storeService fault₂) iter₂ nodeID d s').2.log.drop
          s'.log.length, en.1.isMutation = false) ∧
      (handleNodeRelationships (storeService fault₂) iter₂ nodeID d s').2.edges = s'.edges ∧
      (handleNodeRelationships (storeService fault₂) iter₂ nodeID d s').2.nextID = s'.nextID) := by
  obtain ⟨_, _, calls, hlog, hj, hok, _, _⟩ :=
    handleNodeRelationships_store fault iter nodeID d s r s' h
  refine ⟨?_, ?_⟩
  · intro k hk D hD hsame en hen hm hep
    have hdes : desiredOf d k = D := by simp [desiredOf, hD]
    rw [drop_log_eq hlog] at hen
    obtain ⟨k', _, hjk⟩ := hj en hen
    have hkk : k' = k := by
      have := endpoint_of_justified hjk
      rw [hep] at this
      exact (Option.some.inj this).symm
    subst hkk
    rw [hdes] at hjk
    exact justified_mutation_not_same hjk hm hsame
  · intro hr fault₂ iter₂
    have hconv : ∀ k ∈ relationshipEndpoints, ∀ x, x ∈ s'.edges nodeID k ↔ x ∈ desiredOf d k :=
      fun k hk => ((hok hr).2 k hk).1
    rcases h2 : handleNodeRelationships (storeService fault₂) iter₂ nodeID d s' with ⟨r₂, s₂⟩
    obtain ⟨hn2, _, calls₂, hlog2, hj2, _, _, _⟩ :=
      handleNodeRelationships_store fault₂ iter₂ nodeID d s' r₂ s₂ h2
    refine ⟨?_, ?_, hn2⟩
    · intro en hen
      simp only at hen
      rw [drop_log_eq hlog2] at hen
      obtain ⟨k', hk', hjk⟩ := hj2 en hen
      cases hm : en.1.isMutation with
      | false => rfl
      | true => exact (justified_mutation_not_same hjk hm (hconv k' hk')).elim
    · have := endpointLoop_same fault₂ iter₂ nodeID d relationshipEndpoints 0 s'
        (fun _ hk => hk) hconv
      unfold handleNodeRelationships at h2
      rw [h2] at this
      exact this

/-- Witness of C3: the current list `[5,5,5]` and the desired list `[5]`, and a
second run after a first one that had to remove `1` and add `4`. -/
theorem handleNodeRelationships_noop_witness :
    (∀ en ∈ (handleNodeRelationships (storeService noFault) (fun _ => reverseOrder) 1
        (desiredData [5] [] []) (storeOf 1 [5, 5, 5] [] [])).2.log.drop
          (storeOf 1 [5, 5, 5] [] []).log.length,
      en.1.isMutation = true → en.1.endpoint? ≠ some "success_nodes") ∧
    (handleNodeRelationships (storeService noFault) (fun _ => insertionOrder) 1
      (desiredData [2, 3, 4] [] [])
      (handleNodeRelationships (storeService noFault) (fun _ => reverseOrder) 1
        (desiredData [2, 3, 4] [] []) (storeOf 1 [3, 1, 2, 2] [] [])).2).2.edges
      = (handleNodeRelationships (storeService noFault) (fun _ => reverseOrder) 1
        (desiredData [2, 3, 4] [] []) (storeOf 1 [3, 1, 2, 2] [] [])).2.edges :=
  ⟨(handleNodeRelationships_noop noFault (fun _ => reverseOrder) 1
      (desiredData [5] [] []) (storeOf 1 [5, 5, 5] [] []) _ _ rfl).1
      "success_nodes" (by decide) [5] rfl (fun x => by simp [storeOf]),
    ((handleNodeRelationships_noop noFault (fun _ => reverseOrder) 1
      (desiredData [2, 3, 4] [] []) (storeOf 1 [3, 1, 2, 2] [] []) _ _ rfl).2 rfl
      noFault (fun _ => insertionOrder)).2.1⟩

theorem failing_entry_last {pre pre' post : Log} {x y : Call × Option String}
    (hx : x.2 ≠ none) (hclean : ∀ en ∈ pre', en.2 = none)
    (h : pre ++ x :: post = pre' ++ [y]) : post = [] ∧ x = y := by
  rcases List.eq_nil_or_concat post with rfl | ⟨L, b, rfl⟩
  · obtain ⟨_, h2⟩ := List.append_inj' h rfl
    exact ⟨rfl, by simpa using h2⟩
  · exfalso
    have h' : (pre ++ x :: L) ++ [b] = pre' ++ [y] := by
      rw [← h]; simp [List.concat_eq_append]
    obtain ⟨h1, _⟩ := List.append_inj' h' rfl
    exact hx (hclean x (by rw [← h1]; simp))

/-- C7: whatever call fails while `handleNodeRelationships` runs, the failed call
is the last call issued and the function returns the error built from it; the
kinds later than the kind of the failed call in the order `success_nodes`,
`failure_nodes`, `always_nodes` receive no call at all and keep their stored
lists, and every kind earlier in that order holds exactly its desired set. -/
theorem handleNodeRelationships_fail_fast (fault : Fault) (iter : Nat → MapOrder)
    (nodeID : Int) (d : ResourceData) (s s' : Store) (r : Except String (Option String))
    (h : handleNodeRelationships (storeService fault) iter nodeID d s = (r, s')) :
    (∀ pre c e post, s'.log.drop s.log.length = pre ++ (c, some e) :: post →
      post = [] ∧ r = .ok (some (relationshipError c e))) ∧
    (∀ pre c e, s'.log.drop s.log.length = pre ++ [(c, some e)] →
      ∃ p k q, ["success_nodes", "failure_nodes", "always_nodes"] = p ++ k :: q ∧
        c.endpoint? = some k ∧
        (∀ k' ∈ q, (∀ en ∈ s'.log.drop s.log.length, en.1.endpoint? ≠ some k') ∧
          s'.edges nodeID k' = s.edges nodeID k') ∧
        (∀ k' ∈ p, ∀ D, d.Get k' = some (Value.list D) →
          ∀ x, x ∈ s'.edges nodeID k' ↔ x ∈ D)) := by
  obtain ⟨_, _, calls, hlog, _, hok, herr, hnp⟩ :=
    handleNodeRelationships_store fault iter nodeID d s r s' h
  rw [drop_log_eq hlog]
  have key : ∀ pre c e post, calls = pre ++ (c, some e) :: post →
      ∃ msg, r = .ok (some msg) := by
    intro pre c e post hc
    rcases r with p | _ | msg
    · exact absurd rfl (hnp p)
    · have := (hok rfl).1 (c, some e) (by rw [hc]; simp)
      simp at this
    · exact ⟨msg, rfl⟩
  refine ⟨?_, ?_⟩
  · intro pre c e post hc
    obtain ⟨msg, hr⟩ := key pre c e post hc
    obtain ⟨p, k, q, pre', c', e', _, hc', hpre', _, hm, _, _, _⟩ := herr msg hr
    obtain ⟨hpost, hxy⟩ := failing_entry_last (x := (c, some e)) (by simp) hpre'
      (hc.symm.trans hc')
    simp only [Prod.mk.injEq, Option.some.injEq] at hxy
    obtain ⟨rfl, rfl⟩ := hxy
    exact ⟨hpost, by rw [hr, hm]⟩
  · intro pre c e hc
    obtain ⟨msg, hr⟩ := key pre c e [] hc
    obtain ⟨p, k, q, pre', c', e', hdec, hc', hpre', hjc, _, hjall, hp, hq⟩ := herr msg hr
    obtain ⟨_, hxy⟩ := failing_entry_last (x := (c, some e)) (by simp) hpre'
      (hc.symm.trans hc')
    simp only [Prod.mk.injEq, Option.some.injEq] at hxy
    obtain ⟨rfl, rfl⟩ := hxy
    have hnd : (p ++ [k] ++ q).Nodup := by
      have := nodup_relationshipEndpoints
      rw [hdec] at this
      simpa using this
    have hdisj := (List.nodup_append.mp hnd).2.2
    have hlit : ["success_nodes", "failure_nodes", "always_nodes"] = p ++ k :: q := by
      rw [← hdec]
      rfl
    refine ⟨p, k, q, hlit, endpoint_of_justified hjc, ?_, ?_⟩
    · intro k' hk'
      refine ⟨?_, hq k' hk'⟩
      intro en hen hep
      obtain ⟨k'', hk'', hjk⟩ := hjall en hen
      have := endpoint_of_justified hjk
      rw [hep] at this
      have hkk : k' = k'' := Option.some.inj this
      exact hdisj (hkk ▸ hk'') hk'
    · intro k' hk' D hD x
      have hdes : desiredOf d k' = D := by simp [desiredOf, hD]
      rw [← hdes]
      exact hp k' hk' x

/-- Witness of C7: the additions `7`, `8`, `9` to `success_nodes` fail on the
second one, so `failure_nodes` and `always_nodes` are never attempted; and a
fetch of `always_nodes` that fails leaves `success_nodes` and `failure_nodes`
holding their desired sets. -/
theorem handleNodeRelationships_fail_fast_witness :
    (([] = ([] : Log) ∧
      (handleNodeRelationships (storeService failSecondAssociate) (fun _ => insertionOrder) 1
        (desiredData [7, 8, 9] [4] []) (storeOf 1 [] [6] [])).1
        = .ok (some (relationshipError (Call.AssociateNodeRelationship 1 8 "success_nodes")
            "boom"))) ∧
    ∃ p k q, ["success_nodes", "failure_nodes", "always_nodes"] = p ++ k :: q ∧
      (Call.AssociateNodeRelationship 1 8 "success_nodes").endpoint? = some k ∧
      (∀ k' ∈ q,
        (∀ en ∈ (handleNodeRelationships (storeService failSecondAssociate)
            (fun _ => insertionOrder) 1 (desiredData [7, 8, 9] [4] [])
            (storeOf 1 [] [6] [])).2.log.drop (storeOf 1 [] [6] []).log.length,
          en.1.endpoint? ≠ some k') ∧
        (handleNodeRelationships (storeService failSecondAssociate) (fun _ => insertionOrder) 1
          (desiredData [7, 8, 9] [4] []) (storeOf 1 [] [6] [])).2.edges 1 k'
          = (storeOf 1 [] [6] []).edges 1 k') ∧
      (∀ k' ∈ p, ∀ D, (desiredData [7, 8, 9] [4] []).Get k' = some (Value.list D) →
        ∀ x, x ∈ (handleNodeRelationships (storeService failSecondAssociate)
            (fun _ => insertionOrder) 1 (desiredData [7, 8, 9] [4] [])
            (storeOf 1 [] [6] [])).2.edges 1 k' ↔ x ∈ D)) ∧
    ∃ p k q, ["success_nodes", "failure_nodes", "always_nodes"] = p ++ k :: q ∧
      (Call.GetNodeRelationships 1 "always_nodes").endpoint? = some k ∧
      (∀ k' ∈ q,
        (∀ en ∈ (handleNodeRelationships (storeService failAlwaysFetch)
            (fun _ => insertionOrder) 1 (desiredData [7] [4] [])
            (storeOf 1 [] [6] [])).2.log.drop (storeOf 1 [] [6] []).log.length,
          en.1.endpoint? ≠ some k') ∧
        (handleNodeRelationships (storeService failAlwaysFetch) (fun _ => insertionOrder) 1
          (desiredData [7] [4] []) (storeOf 1 [] [6] [])).2.edges 1 k'
          = (storeOf 1 [] [6] []).edges 1 k') ∧
      (∀ k' ∈ p, ∀ D, (desiredData [7] [4] []).Get k' = some (Value.list D) →
        ∀ x, x ∈ (handleNodeRelationships (storeService failAlwaysFetch)
            (fun _ => insertionOrder) 1 (desiredData [7] [4] [])
            (storeOf 1 [] [6] [])).2.edges 1 k' ↔ x ∈ D) :=
  ⟨⟨(handleNodeRelationships_fail_fast failSecondAssociate (fun _ => insertionOrder) 1
      (desiredData [7, 8, 9] [4] []) (storeOf 1 [] [6] []) _ _ rfl).1
      [(Call.GetNodeRelationships 1 "success_nodes", none),
        (Call.AssociateNodeRelationship 1 7 "success_nodes", none)]
      (Call.AssociateNodeRelationship 1 8 "success_nodes") "boom" [] (by decide),
    (handleNodeRelationships_fail_fast failSecondAssociate (fun _ => insertionOrder) 1
      (desiredData [7, 8, 9] [4] []) (storeOf 1 [] [6] []) _ _ rfl).2
      [(Call.GetNodeRelationships 1 "success_nodes", none),
        (Call.AssociateNodeRelationship 1 7 "success_nodes", none)]
      (Call.AssociateNodeRelationship 1 8 "success_nodes") "boom" (by decide)⟩,
    (handleNodeRelationships_fail_fast failAlwaysFetch (fun _ => insertionOrder) 1
      (desiredData [7] [4] []) (storeOf 1 [] [6] []) _ _ rfl).2
      [(Call.GetNodeRelationships 1 "success_nodes", none),
        (Call.AssociateNodeRelationship 1 7 "success_nodes", none),
        (Call.GetNodeRelationships 1 "failure_nodes", none),
        (Call.DisassociateNodeRelationship 1 6 "failure_nodes", none),
        (Call.AssociateNodeRelationship 1 4 "failure_nodes", none)]
      (Call.GetNodeRelationships 1 "always_nodes") "down" (by decide)⟩

/-! ## The error returned for a failed call -/

theorem relationshipError_inj (c₁ c₂ : Call) (e₁ e₂ : String)
    (h₁ : ∃ k ∈ relationshipEndpoints, c₁.endpoint? = some k)
    (h₂ : ∃ k ∈ relationshipEndpoints, c₂.endpoint? = some k)
    (h : relationshipError c₁ e₁ = relationshipError c₂ e₂) :
    c₁.endpoint? = c₂.endpoint? ∧ c₁.isMutation = c₂.isMutation ∧
      c₁.isAssociate = c₂.isAssociate ∧ e₁ = e₂ := by
  obtain ⟨k₁, hk₁, hc₁⟩ := h₁
  obtain ⟨k₂, hk₂, hc₂⟩ := h₂
  simp only [relationshipEndpoints, List.mem_cons, List.mem_singleton, List.not_mem_nil,
    or_false] at hk₁ hk₂
  have hd := congrArg String.data h
  cases c₁ <;> cases c₂ <;> simp only [Call.endpoint?, Option.some.injEq, reduceCtorEq] at hc₁ hc₂
    <;> subst hc₁ <;> subst hc₂
    <;> rcases hk₁ with rfl | rfl | rfl <;> rcases hk₂ with rfl | rfl | rfl
    <;> simp [relationshipError] at hd
    <;> simp [Call.endpoint?, Call.isMutation, Call.isAssociate]
    <;> exact String.ext hd

/-- Witness against C9 as stated: an associate call for node `1` and target `7`
and an associate call for node `2` and target `8` fail with the same remote
message, and `handleNodeRelationships` returns the same error for both. -/
theorem handleNodeRelationships_error_omits_ids :
    (handleNodeRelationships (storeService failAssociate) (fun _ => insertionOrder) 1
      (desiredData [7] [] []) (storeOf 1 [] [] [])).2.log
      = [(Call.GetNodeRelationships 1 "success_nodes", none),
         (Call.AssociateNodeRelationship 1 7 "success_nodes", some "boom")] ∧
    (handleNodeRelationships (storeService failAssociate) (fun _ => insertionOrder) 2
      (desiredData [8] [] []) (storeOf 2 [] [] [])).2.log
      = [(Call.GetNodeRelationships 2 "success_nodes", none),
         (Call.AssociateNodeRelationship 2 8 "success_nodes", some "boom")] ∧
    (handleNodeRelationships (storeService failAssociate) (fun _ => insertionOrder) 1
      (desiredData [7] [] []) (storeOf 1 [] [] [])).1
      = .ok (some "failed to create success_nodes relationship: boom") ∧
    (handleNodeRelationships (storeService failAssociate) (fun _ => insertionOrder) 2
      (desiredData [8] [] []) (storeOf 2 [] [] [])).1
      = (handleNodeRelationships (storeService failAssociate) (fun _ => insertionOrder) 1
        (desiredData [7] [] []) (storeOf 1 [] [] [])).1 :=
  ⟨by decide, by decide, rfl, rfl⟩

/-- C9 as amended: when `handleNodeRelationships` returns an error, the error is
built from the last call issued, which failed, as `relationshipError` builds it:
from the kind, the operation (fetch, remove or add) and the remote error
message.  An error built from a call of another kind, of another operation or
with another remote message is a different error. -/
theorem handleNodeRelationships_error_kind_direction (fault : Fault) (iter : Nat → MapOrder)
    (nodeID : Int) (d : ResourceData) (s s' : Store) (msg : String)
    (h : handleNodeRelationships (storeService fault) iter nodeID d s = (.ok (some msg), s')) :
    ∃ pre c e, s'.log.drop s.log.length = pre ++ [(c, some e)] ∧
      msg = relationshipError c e ∧
      (∃ k ∈ relationshipEndpoints, c.endpoint? = some k) ∧
      ∀ c₂ e₂, (∃ k ∈ relationshipEndpoints, c₂.endpoint? = some k) →
        relationshipError c₂ e₂ = msg →
        c₂.endpoint? = c.endpoint? ∧ c₂.isMutation = c.isMutation ∧
          c₂.isAssociate = c.isAssociate ∧ e₂ = e := by
  obtain ⟨_, _, calls, hlog, _, _, herr, _⟩ :=
    handleNodeRelationships_store fault iter nodeID d s _ s' h
  rw [drop_log_eq hlog]
  obtain ⟨p, k, q, pre, c, e, hdec, hc, _, hjc, hm, _, _, _⟩ := herr msg rfl
  have hkin : ∃ k ∈ relationshipEndpoints, c.endpoint? = some k :=
    ⟨k, by rw [hdec]; simp, endpoint_of_justified hjc⟩
  refine ⟨pre, c, e, hc, hm, hkin, ?_⟩
  intro c₂ e₂ h₂ heq
  exact relationshipError_inj c₂ c e₂ e h₂ hkin (heq.trans hm)

/-- Witness of C9 as amended: the failed association of target `7`. -/
theorem handleNodeRelationships_error_kind_direction_witness :
    ∃ pre c e,
      (handleNodeRelationships (storeService failAssociate) (fun _ => insertionOrder) 1
        (desiredData [7] [] []) (storeOf 1 [] [] [])).2.log.drop
          (storeOf 1 [] [] []).log.length = pre ++ [(c, some e)] ∧
      "failed to create success_nodes relationship: boom" = relationshipError c e ∧
      (∃ k ∈ relationshipEndpoints, c.endpoint? = some k) ∧
      ∀ c₂ e₂, (∃ k ∈ relationshipEndpoints, c₂.endpoint? = some k) →
        relationshipError c₂ e₂ = "failed to create success_nodes relationship: boom" →
        c₂.endpoint? = c.endpoint? ∧ c₂.isMutation = c.isMutation ∧
          c₂.isAssociate = c.isAssociate ∧ e₂ = e :=
  handleNodeRelationships_error_kind_direction failAssociate (fun _ => insertionOrder) 1
    (desiredData [7] [] []) (storeOf 1 [] [] []) _ _ rfl

/-! ## The attribute map of a create or update call -/

theorem Get_typed (d : ResourceData) (key : String) (sch : Schema)
    (h : resourceWorkflowJobTemplateNodeSchema.lookup key = some sch)
    (hd : ∀ v, sch.dflt = some v → v.type = sch.type) :
    ∃ v, d.Get key = some v ∧ v.type = sch.type := by
  unfold ResourceData.Get
  rw [h]
  cases hv : d.attrs key with
  | none =>
    cases hdf : sch.dflt with
    | none =>
      refine ⟨sch.type.zero, by simp [hdf], ?_⟩
      cases sch.type <;> rfl
    | some v => exact ⟨v, by simp [hdf], hd v hdf⟩
  | some v =>
    by_cases ht : v.type = sch.type
    · exact ⟨v, by simp [ht], ht⟩
    · refine ⟨sch.type.zero, by simp [ht], ?_⟩
      cases sch.type <;> rfl

theorem Get_string (d : ResourceData) (key : String) (dflt : Option Value)
    (h : resourceWorkflowJobTemplateNodeSchema.lookup key = some ⟨ValueType.TypeString, dflt⟩)
    (hd : ∀ v, dflt = some v → v.type = ValueType.TypeString) :
    ∃ x, d.Get key = some (Value.string x) := by
  obtain ⟨v, hv, ht⟩ := Get_typed d key _ h hd
  cases v with
  | string x => exact ⟨x, hv⟩
  | bool b => simp [Value.type] at ht
  | int n => simp [Value.type] at ht
  | list l => simp [Value.type] at ht

theorem Get_int (d : ResourceData) (key : String) (dflt : Option Value)
    (h : resourceWorkflowJobTemplateNodeSchema.lookup key = some ⟨ValueType.TypeInt, dflt⟩)
    (hd : ∀ v, dflt = some v → v.type = ValueType.TypeInt) :
    ∃ x, d.Get key = some (Value.int x) := by
  obtain ⟨v, hv, ht⟩ := Get_typed d key _ h hd
  cases v with
  | int x => exact ⟨x, hv⟩
  | bool b => simp [Value.type] at ht
  | string n => simp [Value.type] at ht
  | list l => simp [Value.type] at ht

theorem Get_bool (d : ResourceData) (key : String) (dflt : Option Value)
    (h : resourceWorkflowJobTemplateNodeSchema.lookup key = some ⟨ValueType.TypeBool, dflt⟩)
    (hd : ∀ v, dflt = some v → v.type = ValueType.TypeBool) :
    ∃ x, d.Get key = some (Value.bool x) := by
  obtain ⟨v, hv, ht⟩ := Get_typed d key _ h hd
  cases v with
  | bool x => exact ⟨x, hv⟩
  | int b => simp [Value.type] at ht
  | string n => simp [Value.type] at ht
  | list l => simp [Value.type] at ht

theorem GetOk_inventory (d : ResourceData) :
    ∃ n, d.GetOk "inventory_id" = (some (Value.int n), decide (n ≠ 0)) := by
  obtain ⟨n, hn⟩ := Get_int d "inventory_id" none rfl (by simp)
  refine ⟨n, ?_⟩
  have hl : resourceWorkflowJobTemplateNodeSchema.lookup "inventory_id"
      = some ⟨ValueType.TypeInt, none⟩ := rfl
  unfold ResourceData.GetOk
  rw [hl, hn]
  simp [ValueType.zero]

/-- The attribute map is always built: the reads of lines 180-202 and 240-262
never panic. -/
theorem nodeParams_ok (d : ResourceData) : ∃ params, nodeParams d = .ok params := by
  obtain ⟨x1, h1⟩ := Get_string d "extra_data" _ rfl (by simp [Value.type])
  obtain ⟨x2, h2⟩ := Get_int d "workflow_job_template_id" _ rfl (by simp)
  obtain ⟨x3, h3⟩ := Get_int d "unified_job_template_id" _ rfl (by simp)
  obtain ⟨x4, h4⟩ := Get_bool d "all_parents_must_converge" _ rfl (by simp [Value.type])
  obtain ⟨x5, h5⟩ := Get_string d "identifier" _ rfl (by simp)
  obtain ⟨x6, h6⟩ := Get_string d "job_type" _ rfl (by simp [Value.type])
  obtain ⟨x7, h7⟩ := Get_int d "verbosity" _ rfl (by simp [Value.type])
  obtain ⟨x8, h8⟩ := Get_string d "limit" _ rfl (by simp)
  obtain ⟨x9, h9⟩ := Get_string d "scm_branch" _ rfl (by simp [Value.type])
  obtain ⟨x10, h10⟩ := Get_string d "job_tags" _ rfl (by simp)
  obtain ⟨x11, h11⟩ := Get_string d "skip_tags" _ rfl (by simp)
  obtain ⟨x12, h12⟩ := Get_bool d "diff_mode" _ rfl (by simp)
  obtain ⟨n, hn⟩ := GetOk_inventory d
  unfold nodeParams
  rw [h1, h2, h3, h4, h5, h6, h7, h8, h9, h10, h11, h12, hn]
  by_cases hrun : x6 = "run" <;> by_cases hz : n = 0 <;>
    simp [assertString, assertInt, assertBool, bind, Except.bind, pure, Except.pure, hrun, hz]

theorem nodeParams_not_run (d : ResourceData)
    (hjt : d.Get "job_type" ≠ some (Value.string "run")) :
    ∃ params, nodeParams d = .ok params ∧ ∀ key ∈ runModeKeys, params.hasKey key = false := by
  obtain ⟨x1, h1⟩ := Get_string d "extra_data" _ rfl (by simp [Value.type])
  obtain ⟨x2, h2⟩ := Get_int d "workflow_job_template_id" _ rfl (by simp)
  obtain ⟨x3, h3⟩ := Get_int d "unified_job_template_id" _ rfl (by simp)
  obtain ⟨x4, h4⟩ := Get_bool d "all_parents_must_converge" _ rfl (by simp [Value.type])
  obtain ⟨x5, h5⟩ := Get_string d "identifier" _ rfl (by simp)
  obtain ⟨x6, h6⟩ := Get_string d "job_type" _ rfl (by simp [Value.type])
  obtain ⟨n, hn⟩ := GetOk_inventory d
  have hrun : x6 ≠ "run" := by
    intro hx
    apply hjt
    rw [h6, hx]
  unfold nodeParams
  rw [h1, h2, h3, h4, h5, h6, hn]
  by_cases hz : n = 0
  · refine ⟨_, by
      simp [assertString, assertInt, assertBool, bind, Except.bind, pure, Except.pure, hrun, hz]
      rfl, ?_⟩
    intro key hkey
    simp only [runModeKeys, List.mem_cons, List.mem_singleton, List.not_mem_nil, or_false] at hkey
    rcases hkey with rfl | rfl | rfl | rfl | rfl | rfl <;> simp [Params.hasKey]
  · refine ⟨_, by
      simp [assertString, assertInt, assertBool, bind, Except.bind, pure, Except.pure, hrun, hz]
      rfl, ?_⟩
    intro key hkey
    simp only [runModeKeys, List.mem_cons, List.mem_singleton, List.not_mem_nil, or_false] at hkey
    rcases hkey with rfl | rfl | rfl | rfl | rfl | rfl <;> simp [Params.hasKey, Params.set]

theorem params_of_justified {nodeID : Int} {k : String} {C D : List Int} {c : Call}
    (h : Justified nodeID k C D c) : c.params? = none := by
  cases c with
  | GetNodeRelationships n k' => rfl
  | DisassociateNodeRelationship n t k' => rfl
  | AssociateNodeRelationship n t k' => rfl
  | CreateWorkflowJobTemplateNode p => exact h.elim
  | UpdateWorkflowJobTemplateNode i p => exact h.elim
  | GetWorkflowJobTemplateNodeByID i => exact h.elim

theorem handleNodeRelationships_log (fault : Fault) (iter : Nat → MapOrder) (nodeID : Int)
    (d : ResourceData) (s : Store) :
    ∃ calls, (handleNodeRelationships (storeService fault) iter nodeID d s).2.log = s.log ++ calls ∧
      ∀ en ∈ calls, en.1.params? = none := by
  rcases hrun : handleNodeRelationships (storeService fault) iter nodeID d s with ⟨r, s'⟩
  obtain ⟨_, _, calls, hlog, hj, _, _, _⟩ :=
    handleNodeRelationships_store fault iter nodeID d s r s' hrun
  refine ⟨calls, hlog, ?_⟩
  intro en hen
  obtain ⟨k, _, hjk⟩ := hj en hen
  exact params_of_justified hjk

theorem create_log (fault : Fault) (iter : Nat → MapOrder) (d : ResourceData) (s : Store)
    (params : Params) (hp : nodeParams d = .ok params) :
    ∃ e calls, (resourceWorkflowJobTemplateNodeCreate (storeService fault) iter d s).2.2.log
        = s.log ++ (Call.CreateWorkflowJobTemplateNode params, e) :: calls ∧
      ∀ en ∈ calls, en.1.params? = none := by
  unfold resourceWorkflowJobTemplateNodeCreate
  rw [hp]
  simp only
  cases hf : fault s.log (Call.CreateWorkflowJobTemplateNode params) with
  | some e =>
    have hc : (storeService fault).CreateWorkflowJobTemplateNode params s
        = (.error e, s.record (Call.CreateWorkflowJobTemplateNode params) (some e)) := by
      simp [storeService, hf]
    rw [hc]
    simp only
    refine ⟨some e, [], ?_, fun en hen => by simp at hen⟩
    cases createFailDetail d e <;> rfl
  | none =>
    have hc : (storeService fault).CreateWorkflowJobTemplateNode params s
        = (.ok ⟨s.nextID⟩, { (s.record (Call.CreateWorkflowJobTemplateNode params) none) with
            nextID := s.nextID + 1 }) := by
      simp [storeService, hf]
    rw [hc]
    simp only
    obtain ⟨calls, hlog, hcalls⟩ := handleNodeRelationships_log fault iter s.nextID
      (d.SetId (toString s.nextID))
      { (s.record (Call.CreateWorkflowJobTemplateNode params) none) with nextID := s.nextID + 1 }
    refine ⟨none, calls, ?_, hcalls⟩
    rcases hrun : handleNodeRelationships (storeService fault) iter s.nextID
      (d.SetId (toString s.nextID))
      { (s.record (Call.CreateWorkflowJobTemplateNode params) none) with
        nextID := s.nextID + 1 } with ⟨r, s₂⟩
    rw [hrun] at hlog
    simp only [Store.record] at hlog
    rcases r with p | _ | msg <;> simp only <;> rw [hlog] <;> simp

theorem update_log (hp : Helpers) (fault : Fault) (iter : Nat → MapOrder) (d : ResourceData)
    (s : Store) (params : Params) (hpar : nodeParams d = .ok params) :
    ∃ calls, (resourceWorkflowJobTemplateNodeUpdate hp (storeService fault) iter d s).2.2.log
        = s.log ++ calls ∧
      (∀ en ∈ calls, ∀ p, en.1.params? = some p → p = params) ∧
      ((hp.convertStateIDToNummeric "Update WorkflowJobTemplateNode" d).2.HasError = false →
        fault s.log (Call.GetWorkflowJobTemplateNodeByID
          (hp.convertStateIDToNummeric "Update WorkflowJobTemplateNode" d).1) = none →
        ∃ e, (Call.UpdateWorkflowJobTemplateNode
          (hp.convertStateIDToNummeric "Update WorkflowJobTemplateNode" d).1 params, e)
            ∈ calls) := by
  unfold resourceWorkflowJobTemplateNodeUpdate
  rcases hconv : hp.convertStateIDToNummeric "Update WorkflowJobTemplateNode" d with ⟨id, diags⟩
  simp only
  by_cases herr : diags.HasError = true
  · rw [if_pos herr]
    exact ⟨[], by simp, fun en hen => by simp at hen, fun h => by rw [herr] at h; simp at h⟩
  · rw [if_neg herr]
    cases hg : fault s.log (Call.GetWorkflowJobTemplateNodeByID id) with
    | some e =>
      have hc : (storeService fault).GetWorkflowJobTemplateNodeByID id s
          = (.error e, s.record (Call.GetWorkflowJobTemplateNodeByID id) (some e)) := by
        simp [storeService, hg]
      rw [hc]
      refine ⟨[(Call.GetWorkflowJobTemplateNodeByID id, some e)], rfl, ?_, ?_⟩
      · intro en hen p hp'
        simp only [List.mem_singleton] at hen
        subst hen
        simp [Call.params?] at hp'
      · intro _ h; simp at h
    | none =>
      have hc : (storeService fault).GetWorkflowJobTemplateNodeByID id s
          = (.ok ⟨id⟩, s.record (Call.GetWorkflowJobTemplateNodeByID id) none) := by
        simp [storeService, hg]
      rw [hc, hpar]
      simp only
      cases hu : fault (s.record (Call.GetWorkflowJobTemplateNodeByID id) none).log
          (Call.UpdateWorkflowJobTemplateNode id params) with
      | some e =>
        have hc2 : (storeService fault).UpdateWorkflowJobTemplateNode id params
            (s.record (Call.GetWorkflowJobTemplateNodeByID id) none)
            = (.error e, (s.record (Call.GetWorkflowJobTemplateNodeByID id) none).record
                (Call.UpdateWorkflowJobTemplateNode id params) (some e)) := by
          simp [storeService, hu]
        rw [hc2]
        simp only
        refine ⟨[(Call.GetWorkflowJobTemplateNodeByID id, none),
          (Call.UpdateWorkflowJobTemplateNode id params, some e)], ?_, ?_, ?_⟩
        · cases updateFailDetail d e <;> simp [Store.record]
        · intro en hen p hp'
          simp only [List.mem_cons, List.mem_singleton, List.not_mem_nil, or_false] at hen
          rcases hen with rfl | rfl
          · simp [Call.params?] at hp'
          · simpa [Call.params?] using hp'.symm
        · intro _ _
          exact ⟨some e, by simp⟩
      | none =>
        have hc2 : (storeService fault).UpdateWorkflowJobTemplateNode id params
            (s.record (Call.GetWorkflowJobTemplateNodeByID id) none)
            = (.ok ⟨id⟩, (s.record (Call.GetWorkflowJobTemplateNodeByID id) none).record
                (Call.UpdateWorkflowJobTemplateNode id params) none) := by
          simp [storeService, hu]
        rw [hc2]
        simp only
        obtain ⟨calls, hlog, hcalls⟩ := handleNodeRelationships_log fault iter id d
          ((s.record (Call.GetWorkflowJobTemplateNodeByID id) none).record
            (Call.UpdateWorkflowJobTemplateNode id params) none)
        refine ⟨(Call.GetWorkflowJobTemplateNodeByID id, none)
          :: (Call.UpdateWorkflowJobTemplateNode id params, none) :: calls, ?_, ?_, ?_⟩
        · rcases hrun : handleNodeRelationships (storeService fault) iter id d
            ((s.record (Call.GetWorkflowJobTemplateNodeByID id) none).record
              (Call.UpdateWorkflowJobTemplateNode id params) none) with ⟨r, s₃⟩
          rw [hrun] at hlog
          simp only [Store.record] at hlog
          rcases r with p | _ | msg <;> simp only <;> rw [hlog] <;> simp
        · intro en hen p hp'
          simp only [List.mem_cons] at hen
          rcases hen with rfl | rfl | hen
          · simp [Call.params?] at hp'
          · simpa [Call.params?] using hp'.symm
          · rw [hcalls en hen] at hp'
            simp at hp'
        · intro _ _
          exact ⟨none, by simp⟩

/-- C8: for every resource data whose job type is not `run`, the attribute map
built from it holds none of the keys `limit`, `scm_branch`, `job_tags`,
`skip_tags`, `diff_mode`, `verbosity`; the create function sends a create call
with this map, and every attribute map that the create function or the update
function sends is this map; the update function sends it whenever the state
identifier converts and the node is found. -/
theorem run_mode_attributes_gated (hp : Helpers) (fault : Fault) (iter : Nat → MapOrder)
    (d : ResourceData) (s : Store)
    (hjt : d.Get "job_type" ≠ some (Value.string "run")) :
    ∃ params, nodeParams d = .ok params ∧
      (∀ key ∈ runModeKeys, params.hasKey key = false) ∧
      (∃ e, (Call.CreateWorkflowJobTemplateNode params, e) ∈
        (resourceWorkflowJobTemplateNodeCreate (storeService fault) iter d s).2.2.log.drop
          s.log.length) ∧
      (∀ en ∈ (resourceWorkflowJobTemplateNodeCreate (storeService fault) iter d s).2.2.log.drop
          s.log.length, ∀ p, en.1.params? = some p → p = params) ∧
      (∀ en ∈ (resourceWorkflowJobTemplateNodeUpdate hp (storeService fault) iter d s).2.2.log.drop
          s.log.length, ∀ p, en.1.params? = some p → p = params) ∧
      ((hp.convertStateIDToNummeric "Update WorkflowJobTemplateNode" d).2.HasError = false →
        fault s.log (Call.GetWorkflowJobTemplateNodeByID
          (hp.convertStateIDToNummeric "Update WorkflowJobTemplateNode" d).1) = none →
        ∃ e, (Call.UpdateWorkflowJobTemplateNode
          (hp.convertStateIDToNummeric "Update WorkflowJobTemplateNode" d).1 params, e)
            ∈ (resourceWorkflowJobTemplateNodeUpdate hp (storeService fault) iter d s).2.2.log.drop
              s.log.length) := by
  obtain ⟨params, hpar, hkeys⟩ := nodeParams_not_run d hjt
  obtain ⟨e, calls, hlog, hcalls⟩ := create_log fault iter d s params hpar
  obtain ⟨calls₂, hlog₂, hcalls₂, hupd⟩ := update_log hp fault iter d s params hpar
  rw [drop_log_eq hlog, drop_log_eq hlog₂]
  refine ⟨params, hpar, hkeys, ⟨e, by simp⟩, ?_, hcalls₂, hupd⟩
  intro en hen p hp'
  rcases List.mem_cons.mp hen with rfl | hen
  · simpa [Call.params?] using hp'.symm
  · rw [hcalls en hen] at hp'
    simp at hp'

/-- Witness of C8: job type `check` with a limit, a verbosity and a diff mode
supplied. -/
theorem run_mode_attributes_gated_witness :
    ∃ params, nodeParams checkData = .ok params ∧
      (∀ key ∈ runModeKeys, params.hasKey key = false) ∧
      (∃ e, (Call.CreateWorkflowJobTemplateNode params, e) ∈
        (resourceWorkflowJobTemplateNodeCreate (storeService noFault) (fun _ => insertionOrder)
          checkData (storeOf 5 [] [] [])).2.2.log.drop (storeOf 5 [] [] []).log.length) ∧
      (∀ en ∈ (resourceWorkflowJobTemplateNodeCreate (storeService noFault)
          (fun _ => insertionOrder) checkData (storeOf 5 [] [] [])).2.2.log.drop
            (storeOf 5 [] [] []).log.length, ∀ p, en.1.params? = some p → p = params) ∧
      (∀ en ∈ (resourceWorkflowJobTemplateNodeUpdate helpersFive (storeService noFault)
          (fun _ => insertionOrder) checkData (storeOf 5 [] [] [])).2.2.log.drop
            (storeOf 5 [] [] []).log.length, ∀ p, en.1.params? = some p → p = params) ∧
      ((helpersFive.convertStateIDToNummeric "Update WorkflowJobTemplateNode"
          checkData).2.HasError = false →
        noFault (storeOf 5 [] [] []).log (Call.GetWorkflowJobTemplateNodeByID
          (helpersFive.convertStateIDToNummeric "Update WorkflowJobTemplateNode" checkData).1)
            = none →
        ∃ e, (Call.UpdateWorkflowJobTemplateNode
          (helpersFive.convertStateIDToNummeric "Update WorkflowJobTemplateNode" checkData).1
            params, e)
            ∈ (resourceWorkflowJobTemplateNodeUpdate helpersFive (storeService noFault)
              (fun _ => insertionOrder) checkData (storeOf 5 [] [] [])).2.2.log.drop
                (storeOf 5 [] [] []).log.length) :=
  run_mode_attributes_gated helpersFive noFault (fun _ => insertionOrder) checkData
    (storeOf 5 [] [] []) (by decide)

/-! ## The diagnostic of a rejected update -/

theorem updateFailDetail_panics (d : ResourceData) (err : String) :
    updateFailDetail d err
      = .error "interface conversion: interface \x7b\x7d is nil, not string" := by
  have hn : d.Get "name" = none := by
    unfold ResourceData.Get
    have : resourceWorkflowJobTemplateNodeSchema.lookup "name" = none := rfl
    rw [this]
  unfold updateFailDetail
  rw [hn]
  rfl

/-- Whatever the resource data, once the state identifier converts and the node
is found, a rejected remote update call ends in the panic of line 269. -/
theorem update_rejected_always_panics (hp : Helpers) (fault : Fault) (iter : Nat → MapOrder)
    (d : ResourceData) (s : Store) (e : String)
    (hconv : (hp.convertStateIDToNummeric "Update WorkflowJobTemplateNode" d).2.HasError = false)
    (hget : fault s.log (Call.GetWorkflowJobTemplateNodeByID
      (hp.convertStateIDToNummeric "Update WorkflowJobTemplateNode" d).1) = none)
    (hupd : ∀ log params, fault log (Call.UpdateWorkflowJobTemplateNode
      (hp.convertStateIDToNummeric "Update WorkflowJobTemplateNode" d).1 params) = some e) :
    (resourceWorkflowJobTemplateNodeUpdate hp (storeService fault) iter d s).1
      = Returned.panic "interface conversion: interface \x7b\x7d is nil, not string" := by
  obtain ⟨params, hpar⟩ := nodeParams_ok d
  unfold resourceWorkflowJobTemplateNodeUpdate
  rcases hc : hp.convertStateIDToNummeric "Update WorkflowJobTemplateNode" d with ⟨id, diags⟩
  rw [hc] at hconv hget hupd
  simp only at hconv hget hupd ⊢
  rw [if_neg (by simp [hconv])]
  have hg : (storeService fault).GetWorkflowJobTemplateNodeByID id s
      = (.ok ⟨id⟩, s.record (Call.GetWorkflowJobTemplateNodeByID id) none) := by
    simp [storeService, hget]
  rw [hg, hpar]
  simp only
  have hu : (storeService fault).UpdateWorkflowJobTemplateNode id params
      (s.record (Call.GetWorkflowJobTemplateNodeByID id) none)
      = (.error e, (s.record (Call.GetWorkflowJobTemplateNodeByID id) none).record
          (Call.UpdateWorkflowJobTemplateNode id params) (some e)) := by
    simp [storeService, hupd]
  rw [hu]
  simp only [updateFailDetail_panics]

/-- C10, the code at a failing input: the schema declares neither `name` nor
`project_id`, and an update whose remote update call is rejected ends in a panic
on the read of `name` instead of returning a diagnostic. -/
theorem update_rejected_panics :
    resourceWorkflowJobTemplateNodeSchema.lookup "name" = none ∧
    resourceWorkflowJobTemplateNodeSchema.lookup "project_id" = none ∧
    (resourceWorkflowJobTemplateNodeUpdate helpersFive (storeService failUpdate)
      (fun _ => insertionOrder) checkData (storeOf 5 [] [] [])).1
      = Returned.panic "interface conversion: interface \x7b\x7d is nil, not string" ∧
    (resourceWorkflowJobTemplateNodeCreate (storeService (fun _ _ => some "conflict"))
      (fun _ => insertionOrder) checkData (storeOf 5 [] [] [])).1
      = Returned.diags [⟨Severity.Error, "Unable to create WorkflowJobTemplateNode",
          "WorkflowJobTemplateNode with JobTemplateID 0 and WorkflowID: 0 failed to create conflict"⟩] :=
  ⟨rfl, rfl, by decide, by decide⟩

end Awx
